import Mathlib

/- Shallow embedding of the stateful signature inspection core of
   src/src/detect-engine-state.c (Suricata's detect-engine state support).

   Machine integers are modelled as Nat (the counters involved never
   overflow in the properties below), bitsets as finite sets of symbolic
   flag constants, the chunked stores as lists of fixed-size lists, and
   the external app-layer / engine callbacks as oracle functions supplied
   as parameters.  All definitions are translated from the C source;
   the only spec-modelled constant is DE_STATE_CHUNK_SIZE, declared in
   detect-engine-state.h which is not part of src/. -/

namespace DeState

/-- Stream direction flags of a packet: the STREAM_TOSERVER, STREAM_TOCLIENT
and STREAM_EOF bits of the uint8_t `flags` argument used by the core. -/
structure StreamFlags where
  toserver : Bool
  toclient : Bool
  eof : Bool
deriving DecidableEq, Repr

/-- The direction slot selection pattern `flags & STREAM_TOSERVER ? 0 : 1`
used throughout detect-engine-state.c. -/
def dirIndex (flags : StreamFlags) : Fin 2 :=
  if flags.toserver then 0 else 1

/-- The other direction slot. -/
def otherDir (i : Fin 2) : Fin 2 :=
  if i = 0 then 1 else 0

/-- Per-record state flags (the DE_STATE_FLAG_* bits of the uint32_t
DeStateStoreItem::flags bitset).  Each inspection engine owns a distinct
inspect bit, modelled symbolically as `engineBit n`. -/
inductive DeFlag where
  | sigCantMatch
  | fullInspect
  | fileTsInspect
  | fileTcInspect
  | engineBit (n : Nat)
deriving DecidableEq, Repr

/-- A DE_STATE_FLAG bitset. -/
abbrev Flags := Finset DeFlag

/-- Direction-state flags (the DETECT_ENGINE_STATE_FLAG_* bits of
DetectEngineStateDirection::flags). -/
structure DirFlags where
  fileTsNew : Bool
  fileTcNew : Bool
  fileStoreDisabled : Bool
deriving DecidableEq, Repr

/-- DeStateStoreItem: per stored signature record (transactional). -/
structure StoredItem where
  sid : Nat
  flags : Flags
deriving DecidableEq

instance : Inhabited StoredItem := ⟨⟨0, ∅⟩⟩

/-- DeStateStoreFlowRule: a transactional record plus the `nm` cursor into
the signature's AMATCH SigMatch chain.  The cursor is modelled as the list
of remaining sigmatch ids, `[]` standing for the NULL pointer. -/
structure FlowRuleItem where
  sid : Nat
  flags : Flags
  nm : List Nat
deriving DecidableEq

instance : Inhabited FlowRuleItem := ⟨⟨0, ∅, []⟩⟩

/-- Modelled from the spec: DE_STATE_CHUNK_SIZE is declared in
detect-engine-state.h, which is not part of src/; the spec fixes the
chunk capacity at 15 records per chunk. -/
def DE_STATE_CHUNK_SIZE : Nat := 15

/-- DetectEngineStateDirection / DetectEngineStateDirectionFlow: chunk
list, record counter, filestore counter and direction flags.  The C source
repeats this structure verbatim for the Item store and the FlowRule store,
so it is generic in the record type here.  A chunk (DeStateStore) is a
fixed array of DE_STATE_CHUNK_SIZE records, modelled as a list of that
length whose unwritten slots hold the zero record (memset in the
allocator). -/
structure DirStateG (α : Type) where
  chunks : List (List α)
  cnt : Nat
  filestoreCnt : Nat
  dflags : DirFlags
deriving DecidableEq

/-- A zeroed direction state (calloc'd by DetectEngineStateAlloc). -/
def emptyDirState (α : Type) : DirStateG α := ⟨[], 0, 0, ⟨false, false, false⟩⟩

/-- A freshly allocated, zeroed chunk (DeStateStoreAlloc + memset). -/
def emptyChunk (α : Type) [Inhabited α] : List α :=
  List.replicate DE_STATE_CHUNK_SIZE default

/-- Core of DeStateSignatureAppend / DeStateFlowRuleAppend (lines 127-202):
walk `cnt / DE_STATE_CHUNK_SIZE` chunks from the head, allocating a chunk
when the walk falls off the list (or the list is empty), then write the
record at slot `cnt % DE_STATE_CHUNK_SIZE` of that chunk and bump `cnt`.
`allocOk` models SCMalloc success; when a needed allocation fails the
function returns with the state untouched. -/
def dirStateAppend {α : Type} [Inhabited α] (ds : DirStateG α) (it : α)
    (allocOk : Bool) : DirStateG α :=
  if ds.chunks.isEmpty then
    if allocOk then
      { ds with
          chunks := [(emptyChunk α).set (ds.cnt % DE_STATE_CHUNK_SIZE) it],
          cnt := ds.cnt + 1 }
    else ds
  else
    if ds.cnt / DE_STATE_CHUNK_SIZE < ds.chunks.length then
      { ds with
          chunks := ds.chunks.set (ds.cnt / DE_STATE_CHUNK_SIZE)
            ((ds.chunks.getD (ds.cnt / DE_STATE_CHUNK_SIZE) []).set
              (ds.cnt % DE_STATE_CHUNK_SIZE) it),
          cnt := ds.cnt + 1 }
    else if allocOk then
      { ds with
          chunks := ds.chunks ++ [(emptyChunk α).set (ds.cnt % DE_STATE_CHUNK_SIZE) it],
          cnt := ds.cnt + 1 }
    else ds

/-- The iter operation of the chunked store: the first `cnt` slots across
chunks in order (the walk performed by DeStateDetectContinueDetection at
lines 901-920). -/
def dirStateIter {α : Type} (ds : DirStateG α) : List α :=
  ds.chunks.flatten.take ds.cnt

/-- DetectEngineState: per-transaction detect state, one direction state
per direction. -/
structure DetectEngineState where
  dirState : Fin 2 → DirStateG StoredItem

/-- DetectEngineStateAlloc: a zeroed per-transaction state. -/
def emptyDetectEngineState : DetectEngineState := ⟨fun _ => emptyDirState _⟩

/-- DetectEngineStateFlow: flow-owned detect state for AMATCH rules. -/
structure DetectEngineStateFlow where
  dirState : Fin 2 → DirStateG FlowRuleItem

/-- DetectEngineStateFlowAlloc: a zeroed flow state. -/
def emptyDetectEngineStateFlow : DetectEngineStateFlow := ⟨fun _ => emptyDirState _⟩

/-- DeStateSignatureAppend (lines 127-162). -/
def DeStateSignatureAppend (state : DetectEngineState) (sNum : Nat)
    (inspectFlags : Flags) (direction : StreamFlags) (allocOk : Bool) :
    DetectEngineState :=
  ⟨Function.update state.dirState (dirIndex direction)
     (dirStateAppend (state.dirState (dirIndex direction)) ⟨sNum, inspectFlags⟩ allocOk)⟩

/-- DeStateFlowRuleAppend (lines 164-202). -/
def DeStateFlowRuleAppend (state : DetectEngineStateFlow) (sNum : Nat)
    (nm : List Nat) (inspectFlags : Flags) (direction : StreamFlags)
    (allocOk : Bool) : DetectEngineStateFlow :=
  ⟨Function.update state.dirState (dirIndex direction)
     (dirStateAppend (state.dirState (dirIndex direction)) ⟨sNum, inspectFlags, nm⟩ allocOk)⟩

/-- The app-layer view of one transaction, as consumed through the
AppLayerParser getters: `present` is `AppLayerParserGetTx != NULL`,
`progress` is GetStateProgress keyed by the direction slot, `deState`
is GetTxDetectState (NULL = none); SetTxDetectState is modelled by
replacing the field. -/
structure TxInfo where
  present : Bool
  progress : Fin 2 → Nat
  deState : Option DetectEngineState

/-- The slice of ::Flow and of its app-layer oracles that the core
reads.  `alstateNull` is `FlowGetAppState(f) == NULL`; `stateValid` is
StateIsValid(alproto, alstate) (lines 86-99); `dceProto` is
`alproto ∈ {DCERPC, SMB, SMB2}`. -/
structure Flow where
  supportsTxs : Bool
  supportsTxDetect : Bool
  alstateNull : Bool
  stateValid : Bool
  dceProto : Bool
  inspectId : Fin 2 → Nat
  completion : Fin 2 → Nat
  txs : List TxInfo
  deState : Option DetectEngineStateFlow
  detectAlversion : Fin 2 → Nat

/-- TxIsLast (lines 101-106): `total_txs - tx_id <= 1` (the drivers only
apply it to ids below the count, where Nat and uint64 agree). -/
def TxIsLast (txId totalTxs : Nat) : Bool := totalTxs - txId ≤ 1

/-- DeStateStoreStateVersion (lines 204-208). -/
def DeStateStoreStateVersion (f : Flow) (alversion : Nat)
    (direction : StreamFlags) : Flow :=
  { f with detectAlversion :=
      Function.update f.detectAlversion (dirIndex direction) alversion }

/-- DeStateStoreFileNoMatchCnt (lines 210-215). -/
def DeStateStoreFileNoMatchCnt (d : DetectEngineState) (fileNoMatch : Nat)
    (direction : StreamFlags) : DetectEngineState :=
  ⟨Function.update d.dirState (dirIndex direction)
    { d.dirState (dirIndex direction) with
        filestoreCnt := (d.dirState (dirIndex direction)).filestoreCnt + fileNoMatch }⟩

/-- DeStateStoreFilestoreSigsCantMatch (lines 217-223); `sghFilestoreCnt`
models `sgh->filestore_cnt`. -/
def DeStateStoreFilestoreSigsCantMatch (sghFilestoreCnt : Nat)
    (d : DetectEngineState) (direction : StreamFlags) : Bool :=
  (d.dirState (dirIndex direction)).filestoreCnt == sghFilestoreCnt

/-- One transaction's contribution to HasStoredSigs: tx non-NULL, a tx
detect state exists and its direction counter is non-zero. -/
def txHasStoredSigs (idx : Fin 2) (tx : TxInfo) : Bool :=
  tx.present &&
    (match tx.deState with
     | some d => (d.dirState idx).cnt != 0
     | none => false)

/-- The tx scan of HasStoredSigs (lines 300-312), over the transactions
from the inspect id onwards. -/
def hasStoredTxSigsFrom (idx : Fin 2) : List TxInfo → Bool
  | [] => false
  | tx :: rest => txHasStoredSigs idx tx || hasStoredTxSigsFrom idx rest

/-- HasStoredSigs (lines 283-315). -/
def HasStoredSigs (f : Flow) (flags : StreamFlags) : Bool :=
  (match f.deState with
   | some d => (d.dirState (dirIndex flags)).cnt != 0
   | none => false)
  ||
  (f.supportsTxs &&
    (if f.stateValid then
       hasStoredTxSigsFrom (dirIndex flags) (f.txs.drop (f.inspectId (dirIndex flags)))
     else false))

/-- DeStateFlowHasInspectableState (lines 327-345). -/
def DeStateFlowHasInspectableState (f : Flow) (alversion : Nat)
    (flags : StreamFlags) : Nat :=
  if ¬flags.eof ∧ f.deState.isSome ∧
      f.detectAlversion (dirIndex flags) = alversion then 2
  else if HasStoredSigs f flags then 1
  else 0

/-! Chunked store: append / iter correctness (claims C6 and C8). -/

/-- Appending a sequence of records with always-successful allocation
(`DeStateSignatureAppend` loop body, allocation succeeding). -/
def dirStateAppendAll {α : Type} [Inhabited α] (ds : DirStateG α) (l : List α) :
    DirStateG α :=
  l.foldl (fun d it => dirStateAppend d it true) ds

/-- Representation invariant of the chunked store: `cnt` counts the
appended records, every chunk has the fixed capacity, the chunk count is
the right ceiling, and the flattened chunks are the appended records
followed by zeroed padding. -/
def storeInv {α : Type} [Inhabited α] (ds : DirStateG α) (l : List α) : Prop :=
  ds.cnt = l.length ∧
  (∀ c ∈ ds.chunks, c.length = DE_STATE_CHUNK_SIZE) ∧
  l.length ≤ DE_STATE_CHUNK_SIZE * ds.chunks.length ∧
  DE_STATE_CHUNK_SIZE * ds.chunks.length < l.length + DE_STATE_CHUNK_SIZE ∧
  ds.chunks.flatten =
    l ++ List.replicate (DE_STATE_CHUNK_SIZE * ds.chunks.length - l.length) default

theorem flatten_set_chunk {α : Type} :
    ∀ (ll : List (List α)) (j r : Nat) (x : α),
      (∀ c ∈ ll, c.length = DE_STATE_CHUNK_SIZE) → j < ll.length →
      r < DE_STATE_CHUNK_SIZE →
      (ll.set j ((ll.getD j []).set r x)).flatten =
        ll.flatten.set (DE_STATE_CHUNK_SIZE * j + r) x
  | [], j, _, _, _, hj, _ => by simp at hj
  | c :: rest, 0, r, x, hlen, _, hr => by
      have hc : c.length = DE_STATE_CHUNK_SIZE := hlen c (List.mem_cons_self _ _)
      simp only [List.getD_cons_zero, List.set_cons_zero, List.flatten_cons,
        Nat.mul_zero, Nat.zero_add]
      rw [List.set_append_left _ _ (by omega)]
  | c :: rest, j + 1, r, x, hlen, hj, hr => by
      have hc : c.length = DE_STATE_CHUNK_SIZE := hlen c (List.mem_cons_self _ _)
      have ih := flatten_set_chunk rest j r x
        (fun d hd => hlen d (List.mem_cons_of_mem _ hd)) (by simpa using hj) hr
      simp only [List.getD_cons_succ, List.set_cons_succ, List.flatten_cons, ih]
      rw [List.set_append_right _ _ (by rw [hc, Nat.mul_succ]; omega)]
      have harith : DE_STATE_CHUNK_SIZE * (j + 1) + r - c.length
          = DE_STATE_CHUNK_SIZE * j + r := by
        rw [hc, Nat.mul_succ]; omega
      rw [harith]

theorem storeInv_empty {α : Type} [Inhabited α] :
    storeInv (emptyDirState α) ([] : List α) := by
  refine ⟨rfl, by simp [emptyDirState], by simp [emptyDirState], ?_, by simp [emptyDirState]⟩
  have : 0 < DE_STATE_CHUNK_SIZE := by decide
  simp only [emptyDirState, List.length_nil, Nat.mul_zero]
  omega

theorem set_zero_replicate {α : Type} (m : Nat) (a x : α) (hm : 0 < m) :
    (List.replicate m a).set 0 x = x :: List.replicate (m - 1) a := by
  cases m with
  | zero => omega
  | succ k => rw [List.replicate_succ, List.set_cons_zero]; rfl

theorem storeInv_append {α : Type} [Inhabited α] (ds : DirStateG α) (l : List α)
    (it : α) (h : storeInv ds l) :
    storeInv (dirStateAppend ds it true) (l ++ [it]) := by
  obtain ⟨hcnt, hlen, hub, hlb, hflat⟩ := h
  have hKpos : 0 < DE_STATE_CHUNK_SIZE := by decide
  by_cases hemp : ds.chunks.isEmpty
  · have h0 : ds.chunks = [] := by simpa [List.isEmpty_iff] using hemp
    have hl : l = [] := by
      rw [h0] at hub
      simpa using List.length_eq_zero.mp (by simpa using hub)
    have hcnt0 : ds.cnt = 0 := by rw [hcnt, hl]; rfl
    unfold dirStateAppend
    rw [if_pos hemp, if_pos rfl]
    subst hl
    refine ⟨by simp [hcnt0], ?_, ?_, ?_, ?_⟩
    · intro c hc
      simp only [List.mem_singleton] at hc
      subst hc
      simp [emptyChunk]
    · simpa using hKpos
    · simp only [List.length_singleton, List.nil_append, Nat.mul_one]
      omega
    · simp only [hcnt0, Nat.zero_mod, List.flatten_cons, List.flatten_nil,
        List.append_nil, List.nil_append, List.length_singleton]
      rw [emptyChunk, set_zero_replicate _ _ _ hKpos]
      have : DE_STATE_CHUNK_SIZE * 1 - 1 = DE_STATE_CHUNK_SIZE - 1 := by omega
      rw [this]
      rfl
  · have hne : ds.chunks ≠ [] := by simpa [List.isEmpty_iff] using hemp
    have hlenpos : 0 < ds.chunks.length := List.length_pos.mpr hne
    by_cases hjump : ds.cnt / DE_STATE_CHUNK_SIZE < ds.chunks.length
    · have hnlt : l.length < DE_STATE_CHUNK_SIZE * ds.chunks.length := by
        have h2 := (Nat.div_lt_iff_lt_mul hKpos).mp hjump
        rw [Nat.mul_comm] at h2
        rw [hcnt] at h2
        exact h2
      unfold dirStateAppend
      rw [if_neg hemp, if_pos hjump]
      have hr : ds.cnt % DE_STATE_CHUNK_SIZE < DE_STATE_CHUNK_SIZE :=
        Nat.mod_lt _ hKpos
      have hset := flatten_set_chunk ds.chunks (ds.cnt / DE_STATE_CHUNK_SIZE)
        (ds.cnt % DE_STATE_CHUNK_SIZE) it hlen hjump hr
      have hidx : DE_STATE_CHUNK_SIZE * (ds.cnt / DE_STATE_CHUNK_SIZE)
          + ds.cnt % DE_STATE_CHUNK_SIZE = l.length := by
        rw [Nat.div_add_mod, hcnt]
      refine ⟨by simpa using hcnt, ?_, ?_, ?_, ?_⟩
      · intro c hc
        rcases List.mem_or_eq_of_mem_set hc with hmem | hceq
        · exact hlen c hmem
        · subst hceq
          rw [List.length_set]
          have hjmem : ds.chunks.getD (ds.cnt / DE_STATE_CHUNK_SIZE) [] ∈ ds.chunks := by
            rw [List.getD_eq_getElem ds.chunks [] hjump]
            exact List.getElem_mem hjump
          exact hlen _ hjmem
      · simp only [List.length_set, List.length_append, List.length_singleton]
        omega
      · simp only [List.length_set, List.length_append, List.length_singleton]
        omega
      · simp only [List.length_set, List.length_append, List.length_singleton]
        rw [hset, hidx, hflat]
        rw [List.set_append_right _ _ (le_refl _)]
        rw [Nat.sub_self,
          set_zero_replicate _ _ _ (by omega :
            0 < DE_STATE_CHUNK_SIZE * ds.chunks.length - l.length)]
        have hpad : DE_STATE_CHUNK_SIZE * ds.chunks.length - l.length - 1
            = DE_STATE_CHUNK_SIZE * ds.chunks.length - (l.length + 1) := by omega
        rw [hpad]
        simp [List.append_assoc]
    · have hge : DE_STATE_CHUNK_SIZE * ds.chunks.length ≤ ds.cnt := by
        have h2 := (Nat.le_div_iff_mul_le hKpos).mp (Nat.le_of_not_lt hjump)
        rw [Nat.mul_comm] at h2
        exact h2
      have hn15 : l.length = DE_STATE_CHUNK_SIZE * ds.chunks.length := by
        rw [hcnt] at hge
        omega
      have hmod : ds.cnt % DE_STATE_CHUNK_SIZE = 0 := by
        rw [hcnt, hn15, Nat.mul_comm]
        exact Nat.mul_mod_left _ _
      unfold dirStateAppend
      rw [if_neg hemp, if_neg hjump, if_pos rfl]
      refine ⟨by simpa using hcnt, ?_, ?_, ?_, ?_⟩
      · intro c hc
        rcases List.mem_append.mp hc with hmem | hceq
        · exact hlen c hmem
        · simp only [List.mem_singleton] at hceq
          subst hceq
          simp [emptyChunk]
      · simp only [List.length_append, List.length_singleton, Nat.mul_add,
          Nat.mul_one]
        omega
      · simp only [List.length_append, List.length_singleton, Nat.mul_add,
          Nat.mul_one]
        omega
      · simp only [List.length_append, List.length_singleton, List.flatten_append,
          List.flatten_cons, List.flatten_nil, List.append_nil, hflat, hmod]
        have hpad0 : DE_STATE_CHUNK_SIZE * ds.chunks.length - l.length = 0 := by omega
        rw [hpad0, List.replicate_zero, List.append_nil]
        rw [emptyChunk, set_zero_replicate _ _ _ hKpos]
        have harith : DE_STATE_CHUNK_SIZE * (ds.chunks.length + 1) - (l.length + 1)
            = DE_STATE_CHUNK_SIZE - 1 := by
          rw [Nat.mul_succ, hn15]
          omega
        rw [harith]
        simp [List.append_assoc]

theorem storeInv_appendAll {α : Type} [Inhabited α] :
    ∀ (l : List α) (ds : DirStateG α) (l₀ : List α), storeInv ds l₀ →
      storeInv (dirStateAppendAll ds l) (l₀ ++ l)
  | [], ds, l₀, h => by simpa [dirStateAppendAll] using h
  | it :: rest, ds, l₀, h => by
      have h2 := storeInv_appendAll rest (dirStateAppend ds it true) (l₀ ++ [it])
        (storeInv_append ds l₀ it h)
      simpa [dirStateAppendAll, List.foldl_cons] using h2

theorem dirStateIter_of_storeInv {α : Type} [Inhabited α] (ds : DirStateG α)
    (l : List α) (h : storeInv ds l) : dirStateIter ds = l := by
  obtain ⟨hcnt, _, _, _, hflat⟩ := h
  rw [dirStateIter, hflat, hcnt, List.take_left' rfl]

/-- Claim C6: starting from an empty DirState, any sequence of appends
(with allocation succeeding) followed by iterating the chunk list from
the head — reading the first `cnt` slots in chunk order — yields exactly
the appended records in insertion order; `cnt` equals the number of
appends; and the records stored by earlier appends are still found,
unmoved, at the same iteration positions after further appends. -/
theorem c6_chunked_store_append_iter (l : List StoredItem) :
    dirStateIter (dirStateAppendAll (emptyDirState StoredItem) l) = l ∧
    (dirStateAppendAll (emptyDirState StoredItem) l).cnt = l.length ∧
    ∀ l₂ : List StoredItem,
      (dirStateIter (dirStateAppendAll (emptyDirState StoredItem) (l ++ l₂))).take
        l.length = l := by
  have hinv := storeInv_appendAll l (emptyDirState StoredItem) [] storeInv_empty
  simp only [List.nil_append] at hinv
  refine ⟨dirStateIter_of_storeInv _ _ hinv, hinv.1, ?_⟩
  intro l₂
  have hinv2 := storeInv_appendAll (l ++ l₂) (emptyDirState StoredItem) [] storeInv_empty
  simp only [List.nil_append] at hinv2
  rw [dirStateIter_of_storeInv _ _ hinv2, List.take_left]

/-- An append that needs a chunk allocation: the chunk list is empty, or
the chunk walk `cnt / DE_STATE_CHUNK_SIZE` falls off the list. -/
def appendNeedsAlloc {α : Type} (ds : DirStateG α) : Prop :=
  ds.chunks.isEmpty = true ∨ ds.chunks.length ≤ ds.cnt / DE_STATE_CHUNK_SIZE

theorem dirStateAppend_allocFail {α : Type} [Inhabited α] (ds : DirStateG α)
    (it : α) (h : appendNeedsAlloc ds) : dirStateAppend ds it false = ds := by
  unfold dirStateAppend
  by_cases hemp : ds.chunks.isEmpty
  · rw [if_pos hemp, if_neg (by simp)]
  · rcases h with h | h
    · exact absurd h hemp
    · rw [if_neg hemp, if_neg (by omega), if_neg (by simp)]

/-- Claim C8: if chunk allocation fails during an append
(DeStateSignatureAppend or DeStateFlowRuleAppend), the append is dropped
silently: the DirState — and hence the whole detect state — is left
exactly unchanged (`cnt` not incremented, no slot written, chunk list
unmodified), and no error is surfaced (both functions return void in C;
here they return the unchanged state). -/
theorem c8_alloc_failure_append_dropped (st : DetectEngineState)
    (stF : DetectEngineStateFlow) (sNum : Nat) (nm : List Nat) (ifl : Flags)
    (dir : StreamFlags)
    (h1 : appendNeedsAlloc (st.dirState (dirIndex dir)))
    (h2 : appendNeedsAlloc (stF.dirState (dirIndex dir))) :
    DeStateSignatureAppend st sNum ifl dir false = st ∧
    DeStateFlowRuleAppend stF sNum nm ifl dir false = stF := by
  constructor
  · show (⟨Function.update st.dirState (dirIndex dir) _⟩ : DetectEngineState) = st
    rw [dirStateAppend_allocFail _ _ h1, Function.update_eq_self]
  · show (⟨Function.update stF.dirState (dirIndex dir) _⟩ : DetectEngineStateFlow) = stF
    rw [dirStateAppend_allocFail _ _ h2, Function.update_eq_self]

/-- Witness for C8 at a concrete input: the empty states need a chunk
allocation for their first append, and the failed append changes
nothing. -/
theorem c8_alloc_failure_append_dropped_witness :
    DeStateSignatureAppend emptyDetectEngineState 3 {DeFlag.fullInspect}
        ⟨true, false, false⟩ false = emptyDetectEngineState ∧
    DeStateFlowRuleAppend emptyDetectEngineStateFlow 3 [0] {DeFlag.fullInspect}
        ⟨true, false, false⟩ false = emptyDetectEngineStateFlow :=
  c8_alloc_failure_append_dropped emptyDetectEngineState emptyDetectEngineStateFlow
    3 [0] {DeFlag.fullInspect} ⟨true, false, false⟩ (Or.inl rfl) (Or.inl rfl)

/-! Pre-check has_inspectable_state (claim C5). -/

/-- The flow-scoped record count of a flow in a direction (0 when no flow
detect state was ever allocated). -/
def flowDirCnt (f : Flow) (idx : Fin 2) : Nat :=
  match f.deState with
  | some d => (d.dirState idx).cnt
  | none => 0

theorem hasStoredTxSigsFrom_iff (idx : Fin 2) (l : List TxInfo) :
    hasStoredTxSigsFrom idx l = true ↔ ∃ tx ∈ l, txHasStoredSigs idx tx = true := by
  induction l with
  | nil => simp [hasStoredTxSigsFrom]
  | cons tx rest ih =>
      simp only [hasStoredTxSigsFrom, Bool.or_eq_true, ih, List.mem_cons]
      constructor
      · rintro (h | ⟨t, ht, hp⟩)
        · exact ⟨tx, Or.inl rfl, h⟩
        · exact ⟨t, Or.inr ht, hp⟩
      · rintro ⟨t, (rfl | ht), hp⟩
        · exact Or.inl hp
        · exact Or.inr ⟨t, ht, hp⟩

theorem HasStoredSigs_iff (f : Flow) (fl : StreamFlags) :
    HasStoredSigs f fl = true ↔
      flowDirCnt f (dirIndex fl) ≠ 0 ∨
        (f.supportsTxs = true ∧ f.stateValid = true ∧
          ∃ tx ∈ f.txs.drop (f.inspectId (dirIndex fl)),
            txHasStoredSigs (dirIndex fl) tx = true) := by
  unfold HasStoredSigs flowDirCnt
  rcases hde : f.deState with _ | d
  · by_cases hv : f.stateValid
    · simp [hv, hasStoredTxSigsFrom_iff]
    · simp [Bool.of_not_eq_true hv, hasStoredTxSigsFrom_iff]
  · by_cases hv : f.stateValid
    · simp [hv, hasStoredTxSigsFrom_iff]
    · simp [Bool.of_not_eq_true hv, hasStoredTxSigsFrom_iff]

/-- A transaction detect state with one record counted in both
directions (used as a concrete input below). -/
def oneRecTxState : DetectEngineState :=
  ⟨fun _ => ⟨[], 1, 0, ⟨false, false, false⟩⟩⟩

/-- A concrete flow: no flow-scoped detect state was ever allocated, but
transaction 0 carries a stored signature, and the stored per-direction
alversion is 3. -/
def c5Flow : Flow :=
  { supportsTxs := true, supportsTxDetect := true, alstateNull := false,
    stateValid := true, dceProto := false,
    inspectId := fun _ => 0, completion := fun _ => 1,
    txs := [⟨true, fun _ => 0, some oneRecTxState⟩],
    deState := none, detectAlversion := fun _ => 3 }

/-- Claim C5 counterexample: without STREAM_EOF and with the stored
detect_alversion for the direction equal to the queried alversion, the
claim as stated requires DeStateFlowHasInspectableState to return 2; on
this flow the code returns 1, because `f->de_state` is NULL while a
transaction holds stored signatures (which HasStoredSigs finds). -/
theorem c5_counterexample :
    DeStateFlowHasInspectableState c5Flow 3 ⟨true, false, false⟩ = 1 ∧
    (⟨true, false, false⟩ : StreamFlags).eof = false ∧
    c5Flow.detectAlversion (dirIndex ⟨true, false, false⟩) = 3 := by
  refine ⟨?_, rfl, rfl⟩
  decide

/-- Claim C5 (amended): DeStateFlowHasInspectableState returns 2 iff
STREAM_EOF is not set, the flow has an allocated flow-scoped detect state
(`f->de_state != NULL`), and the stored detect_alversion for the
direction equals the given alversion; in every other case it returns 1
exactly when stored signatures exist for the direction — a non-zero
flow-scoped record count, or some transaction from the direction's
inspect id onward whose transaction detect state has a non-zero record
count — and 0 otherwise. -/
theorem c5_has_inspectable_state_amended (f : Flow) (alversion : Nat)
    (fl : StreamFlags) :
    (DeStateFlowHasInspectableState f alversion fl = 2 ↔
      fl.eof = false ∧ f.deState.isSome = true ∧
        f.detectAlversion (dirIndex fl) = alversion) ∧
    (¬(fl.eof = false ∧ f.deState.isSome = true ∧
        f.detectAlversion (dirIndex fl) = alversion) →
      DeStateFlowHasInspectableState f alversion fl
        = if flowDirCnt f (dirIndex fl) ≠ 0 ∨
              (f.supportsTxs = true ∧ f.stateValid = true ∧
                ∃ tx ∈ f.txs.drop (f.inspectId (dirIndex fl)),
                  txHasStoredSigs (dirIndex fl) tx = true)
          then 1 else 0) := by
  constructor
  · unfold DeStateFlowHasInspectableState
    split_ifs with h1 h2
    · simp only [true_iff]
      obtain ⟨he, hs, hv⟩ := h1
      exact ⟨Bool.not_eq_true _ ▸ (by simpa using he), hs, hv⟩
    · constructor
      · intro h
        exact absurd h (by decide)
      · intro ⟨he, hs, hv⟩
        exact absurd ⟨by simp [he], hs, hv⟩ h1
    · constructor
      · intro h
        exact absurd h (by decide)
      · intro ⟨he, hs, hv⟩
        exact absurd ⟨by simp [he], hs, hv⟩ h1
  · intro hno
    unfold DeStateFlowHasInspectableState
    rw [if_neg (fun h => hno ⟨by simpa using h.1, h.2.1, h.2.2⟩)]
    by_cases hs : HasStoredSigs f fl = true
    · rw [if_pos hs, if_pos ((HasStoredSigs_iff f fl).mp hs)]
    · rw [if_neg hs, if_neg (fun hb => hs ((HasStoredSigs_iff f fl).mpr hb))]

/-- Witness for the amended C5 at a concrete input: with STREAM_EOF set
the version short-circuit is skipped and the stored transaction
signature makes the result 1. -/
theorem c5_has_inspectable_state_amended_witness :
    DeStateFlowHasInspectableState c5Flow 3 ⟨true, false, true⟩ = 1 := by
  have h := (c5_has_inspectable_state_amended c5Flow 3 ⟨true, false, true⟩).2
    (by intro h; exact absurd h.1 (by decide))
  rw [h]
  rw [if_pos (by decide)]

/-! Inspection engines, signatures and the start driver (claims C1, C2). -/

/-- The four results an inspection engine callback can return
(DETECT_ENGINE_INSPECT_SIG_*). -/
inductive InspectResult where
  | sigMatch
  | noMatch
  | cantMatch
  | cantMatchFilestore
deriving DecidableEq, Repr

/-- One entry of the app_inspection_engine table: the submatch list id it
consumes and its distinct inspect-flags bit. -/
structure Engine where
  smList : Nat
  bit : DeFlag
deriving DecidableEq

/-- The slice of ::Signature the core reads: compact id `num`, which
submatch lists are non-empty, the AMATCH sigmatch chain (as sigmatch
ids, [] = NULL) and the NOALERT flag. -/
structure Signature where
  num : Nat
  smListNonEmpty : Nat → Bool
  amatch : List Nat
  noalert : Bool

/-- The DETECT_SM_LIST_DMATCH list id (a fixed index into sm_lists). -/
def smListDMATCH : Nat := 101

/-- The oracles and globals a driver call reads: de_ctx->sig_array, the
per-direction engine table for the flow's protocol, the engine callback
results (per signature id, transaction id and engine), the AMATCH
sigmatch table (`appHasCb sm` = AppLayerMatch non-NULL, `appRes sid sm` ∈
{0 no match, 1 match, 2 cant match}), the DCE payload inspector result,
and det_ctx->sgh->filestore_cnt. -/
structure DetectCtx where
  sigArray : Nat → Signature
  engines : Fin 2 → List Engine
  engRes : Nat → Nat → Engine → InspectResult
  appHasCb : Nat → Bool
  appRes : Nat → Nat → Nat
  dceRes : Nat → Bool
  sghFilestoreCnt : Nat

/-- Result of one walk of the engine list: `exhausted` is `engine == NULL`
after the loop, plus the `total_matches`, `inspect_flags` and
`file_no_match` accumulators. -/
structure EngineRun where
  exhausted : Bool
  totalMatches : Nat
  inspectFlags : Flags
  fileNoMatch : Nat
deriving DecidableEq

/-- The engine loop of DeStateDetectStartDetection (lines 459-481):
engines whose sm_list is empty for `s` are skipped; a match accumulates
the engine's bit and continues; any other result breaks, CANT_MATCH
results also setting DE_STATE_FLAG_SIG_CANT_MATCH (and bumping
file_no_match for the filestore variant). -/
def runEnginesStartAux (s : Signature) (res : Engine → InspectResult) :
    List Engine → Nat → Flags → Nat → EngineRun
  | [], total, ifl, fnm => ⟨true, total, ifl, fnm⟩
  | e :: rest, total, ifl, fnm =>
    if s.smListNonEmpty e.smList then
      match res e with
      | InspectResult.sigMatch =>
          runEnginesStartAux s res rest (total + 1) (insert e.bit ifl) fnm
      | InspectResult.noMatch => ⟨false, total, ifl, fnm⟩
      | InspectResult.cantMatch =>
          ⟨false, total, insert e.bit (insert DeFlag.sigCantMatch ifl), fnm⟩
      | InspectResult.cantMatchFilestore =>
          ⟨false, total, insert e.bit (insert DeFlag.sigCantMatch ifl), fnm + 1⟩
    else runEnginesStartAux s res rest total ifl fnm

def runEnginesStart (s : Signature) (res : Engine → InspectResult)
    (engines : List Engine) : EngineRun :=
  runEnginesStartAux s res engines 0 ∅ 0

/-- The claim-side reading of "all engines with a non-empty sm_list
matched": at least one engine consumes a list of `s`, and every such
engine's callback returned MATCH. -/
def allRelevantEnginesMatched (s : Signature) (res : Engine → InspectResult)
    (engines : List Engine) : Prop :=
  (∃ e ∈ engines, s.smListNonEmpty e.smList = true) ∧
  ∀ e ∈ engines, s.smListNonEmpty e.smList = true → res e = InspectResult.sigMatch

theorem runEnginesStartAux_exhausted (s : Signature) (res : Engine → InspectResult) :
    ∀ (L : List Engine) (t : Nat) (ifl : Flags) (fn : Nat),
      (runEnginesStartAux s res L t ifl fn).exhausted = true ↔
        ∀ e ∈ L, s.smListNonEmpty e.smList = true → res e = InspectResult.sigMatch
  | [], t, ifl, fn => by simp [runEnginesStartAux]
  | e :: rest, t, ifl, fn => by
      by_cases hrel : s.smListNonEmpty e.smList = true
      · rcases hres : res e with _ | _ | _ | _
        · rw [runEnginesStartAux, if_pos hrel, hres]
          rw [runEnginesStartAux_exhausted s res rest]
          constructor
          · intro h e' he' hrel'
            rcases List.mem_cons.mp he' with rfl | he''
            · exact hres
            · exact h e' he'' hrel'
          · intro h e' he' hrel'
            exact h e' (List.mem_cons_of_mem _ he') hrel'
        all_goals
          rw [runEnginesStartAux, if_pos hrel, hres]
          constructor
          · intro h
            simp at h
          · intro h
            exact absurd (h e (List.mem_cons_self _ _) hrel) (by simp [hres])
      · simp only [runEnginesStartAux, if_neg hrel, List.mem_cons]
        rw [runEnginesStartAux_exhausted s res rest]
        constructor
        · rintro h e' (rfl | he') hrel'
          · exact absurd hrel' hrel
          · exact h e' he' hrel'
        · intro h e' he' hrel'
          exact h e' (Or.inr he') hrel'

theorem runEnginesStartAux_total (s : Signature) (res : Engine → InspectResult) :
    ∀ (L : List Engine) (t : Nat) (ifl : Flags) (fn : Nat),
      (∀ e ∈ L, s.smListNonEmpty e.smList = true → res e = InspectResult.sigMatch) →
      (runEnginesStartAux s res L t ifl fn).totalMatches
        = t + L.countP (fun e => s.smListNonEmpty e.smList)
  | [], t, ifl, fn, _ => by simp [runEnginesStartAux]
  | e :: rest, t, ifl, fn, h => by
      by_cases hrel : s.smListNonEmpty e.smList = true
      · rw [runEnginesStartAux, if_pos hrel, h e (List.mem_cons_self _ _) hrel,
          runEnginesStartAux_total s res rest (t + 1) _ _
            (fun e' he' => h e' (List.mem_cons_of_mem _ he'))]
        rw [List.countP_cons_of_pos _ _ (by simpa using hrel)]
        omega
      · rw [runEnginesStartAux, if_neg hrel,
          runEnginesStartAux_total s res rest t _ _
            (fun e' he' => h e' (List.mem_cons_of_mem _ he'))]
        rw [List.countP_cons_of_neg _ _ (by simpa using hrel)]

theorem runEnginesStart_match_iff (s : Signature) (res : Engine → InspectResult)
    (engines : List Engine) :
    ((runEnginesStart s res engines).exhausted = true ∧
      0 < (runEnginesStart s res engines).totalMatches) ↔
    allRelevantEnginesMatched s res engines := by
  unfold runEnginesStart allRelevantEnginesMatched
  rw [runEnginesStartAux_exhausted]
  constructor
  · rintro ⟨hall, hpos⟩
    rw [runEnginesStartAux_total s res engines 0 ∅ 0 hall] at hpos
    simp only [Nat.zero_add] at hpos
    obtain ⟨e, he, hp⟩ := List.countP_pos_iff.mp hpos
    exact ⟨⟨e, he, hp⟩, hall⟩
  · rintro ⟨⟨e, he, hp⟩, hall⟩
    refine ⟨hall, ?_⟩
    rw [runEnginesStartAux_total s res engines 0 ∅ 0 hall]
    simp only [Nat.zero_add]
    exact List.countP_pos_iff.mpr ⟨e, he, by simpa using hp⟩

/-- StoreStateTxHandleFiles (lines 364-373): add `file_no_match` to the
direction's filestore counter; once it equals the group's filestore
candidate count, disable file storing for the transaction (external call
FileDisableStoringForTransaction) and set FILE_STORE_DISABLED. -/
def StoreStateTxHandleFiles (ctx : DetectCtx) (destate : DetectEngineState)
    (fl : StreamFlags) (fnm : Nat) : DetectEngineState :=
  let d1 := DeStateStoreFileNoMatchCnt destate fnm fl
  if DeStateStoreFilestoreSigsCantMatch ctx.sghFilestoreCnt d1 fl then
    ⟨Function.update d1.dirState (dirIndex fl)
       { d1.dirState (dirIndex fl) with
           dflags := { (d1.dirState (dirIndex fl)).dflags with
                         fileStoreDisabled := true } }⟩
  else d1

/-- The tx detect state StoreStateTx works on: the existing one, or a
freshly allocated zeroed one. -/
def txDeStateOrEmpty (tx : TxInfo) : DetectEngineState :=
  tx.deState.getD emptyDetectEngineState

/-- StoreStateTx (lines 396-422): when the protocol supports tx detect
states, get or allocate the state, append the signature record, store the
state version on the flow and handle the filestore counters.  `allocOk`
models allocation success (both of the state and of chunks). -/
def StoreStateTx (ctx : DetectCtx) (f : Flow) (fl : StreamFlags)
    (alversion : Nat) (tx : TxInfo) (s : Signature) (ifl : Flags) (fnm : Nat)
    (allocOk : Bool) : TxInfo × Flow :=
  if f.supportsTxDetect then
    let dOpt : Option DetectEngineState :=
      match tx.deState with
      | some d => some d
      | none => if allocOk then some emptyDetectEngineState else none
    match dOpt with
    | none => (tx, f)
    | some d =>
        let d1 := DeStateSignatureAppend d s.num ifl fl allocOk
        let f1 := DeStateStoreStateVersion f alversion fl
        ({ tx with deState := some (StoreStateTxHandleFiles ctx d1 fl fnm) }, f1)
  else (tx, f)

/-- StoreStateTxFileOnly (lines 375-394): like StoreStateTx but only the
filestore counters are updated — no record, no version store. -/
def StoreStateTxFileOnly (ctx : DetectCtx) (f : Flow) (fl : StreamFlags)
    (tx : TxInfo) (fnm : Nat) (allocOk : Bool) : TxInfo :=
  if f.supportsTxDetect then
    let dOpt : Option DetectEngineState :=
      match tx.deState with
      | some d => some d
      | none => if allocOk then some emptyDetectEngineState else none
    match dOpt with
    | none => tx
    | some d => { tx with deState := some (StoreStateTxHandleFiles ctx d fl fnm) }
  else tx

/-- Result of one iteration of the start driver's transaction loop. -/
structure TxStepOut where
  tx : TxInfo
  flow : Flow
  alerted : Bool
  iflags : Flags
  fnm : Nat

/-- The engine run of the start driver's transaction loop body for one
transaction (lines 457-481). -/
def startTxEngineRun (ctx : DetectCtx) (s : Signature) (fl : StreamFlags)
    (txId : Nat) : EngineRun :=
  runEnginesStart s (ctx.engRes s.num txId) (ctx.engines (dirIndex fl))

/-- `engine == NULL && total_matches > 0`: the start driver's alert
condition for one transaction (line 485). -/
def startTxAlerted (ctx : DetectCtx) (s : Signature) (fl : StreamFlags)
    (txId : Nat) : Bool :=
  (startTxEngineRun ctx s fl txId).exhausted
    && decide (0 < (startTxEngineRun ctx s fl txId).totalMatches)

/-- The flags stored by the start driver when it persists a record
(lines 502-504): the engine run's inspect_flags, with FULL_INSPECT added
when the engines were exhausted or CANT_MATCH is set. -/
def startTxStoredFlags (ctx : DetectCtx) (s : Signature) (fl : StreamFlags)
    (txId : Nat) : Flags :=
  if (startTxEngineRun ctx s fl txId).exhausted = true
      ∨ DeFlag.sigCantMatch ∈ (startTxEngineRun ctx s fl txId).inspectFlags then
    insert DeFlag.fullInspect (startTxEngineRun ctx s fl txId).inspectFlags
  else (startTxEngineRun ctx s fl txId).inspectFlags

/-- The body of the transaction loop of DeStateDetectStartDetection
(lines 450-512) for one non-NULL transaction: run the engines, alert on a
full match, and persist a record (StoreStateTx) when a decision was
reached and the tx is not the last-and-done one, marking FULL_INSPECT;
otherwise only the filestore bookkeeping runs (StoreStateTxFileOnly). -/
def startTxStep (ctx : DetectCtx) (s : Signature) (f : Flow) (fl : StreamFlags)
    (alversion : Nat) (allocOk : Bool) (txId totalTxs : Nat) (tx : TxInfo)
    (fnm0 : Nat) : TxStepOut :=
  if startTxAlerted ctx s fl txId = true
      ∨ DeFlag.sigCantMatch ∈ (startTxEngineRun ctx s fl txId).inspectFlags then
    if TxIsLast txId totalTxs = false
        ∨ ¬(f.completion (dirIndex fl) ≤ tx.progress (dirIndex fl)) then
      ⟨(StoreStateTx ctx f fl alversion tx s (startTxStoredFlags ctx s fl txId)
          (fnm0 + (startTxEngineRun ctx s fl txId).fileNoMatch) allocOk).1,
       (StoreStateTx ctx f fl alversion tx s (startTxStoredFlags ctx s fl txId)
          (fnm0 + (startTxEngineRun ctx s fl txId).fileNoMatch) allocOk).2,
       startTxAlerted ctx s fl txId,
       startTxStoredFlags ctx s fl txId,
       fnm0 + (startTxEngineRun ctx s fl txId).fileNoMatch⟩
    else
      ⟨StoreStateTxFileOnly ctx f fl tx
          (fnm0 + (startTxEngineRun ctx s fl txId).fileNoMatch) allocOk,
       f, startTxAlerted ctx s fl txId,
       (startTxEngineRun ctx s fl txId).inspectFlags,
       fnm0 + (startTxEngineRun ctx s fl txId).fileNoMatch⟩
  else
    ⟨tx, f, startTxAlerted ctx s fl txId,
     (startTxEngineRun ctx s fl txId).inspectFlags,
     fnm0 + (startTxEngineRun ctx s fl txId).fileNoMatch⟩

/-- The transactional record count of a transaction in a direction (0
when it has no detect state). -/
def txDirCnt (tx : TxInfo) (idx : Fin 2) : Nat :=
  ((txDeStateOrEmpty tx).dirState idx).cnt

theorem dirStateAppend_cnt {α : Type} [Inhabited α] (ds : DirStateG α) (it : α) :
    (dirStateAppend ds it true).cnt = ds.cnt + 1 := by
  unfold dirStateAppend
  split_ifs <;> simp_all

theorem DeStateSignatureAppend_dir_cnt (d : DetectEngineState) (n : Nat)
    (ifl : Flags) (fl : StreamFlags) :
    ((DeStateSignatureAppend d n ifl fl true).dirState (dirIndex fl)).cnt
      = (d.dirState (dirIndex fl)).cnt + 1 := by
  simp [DeStateSignatureAppend, Function.update_same, dirStateAppend_cnt]

theorem StoreStateTxHandleFiles_cnt (ctx : DetectCtx) (d : DetectEngineState)
    (fl : StreamFlags) (fnm : Nat) (i : Fin 2) :
    ((StoreStateTxHandleFiles ctx d fl fnm).dirState i).cnt
      = (d.dirState i).cnt := by
  simp only [StoreStateTxHandleFiles, DeStateStoreFileNoMatchCnt]
  split_ifs with h
  · by_cases hi : i = dirIndex fl <;> simp [Function.update_apply, hi]
  · by_cases hi : i = dirIndex fl <;> simp [Function.update_apply, hi]

theorem StoreStateTx_stored (ctx : DetectCtx) (f : Flow) (fl : StreamFlags)
    (alversion : Nat) (tx : TxInfo) (s : Signature) (ifl : Flags) (fnm : Nat)
    (hsupp : f.supportsTxDetect = true) :
    txDirCnt (StoreStateTx ctx f fl alversion tx s ifl fnm true).1 (dirIndex fl)
      = txDirCnt tx (dirIndex fl) + 1 ∧
    (StoreStateTx ctx f fl alversion tx s ifl fnm true).1.deState
      = some (StoreStateTxHandleFiles ctx
          (DeStateSignatureAppend (txDeStateOrEmpty tx) s.num ifl fl true) fl fnm) := by
  have hde : (StoreStateTx ctx f fl alversion tx s ifl fnm true).1.deState
      = some (StoreStateTxHandleFiles ctx
          (DeStateSignatureAppend (txDeStateOrEmpty tx) s.num ifl fl true) fl fnm) := by
    cases htx : tx.deState with
    | none => simp [StoreStateTx, hsupp, txDeStateOrEmpty, htx]
    | some d => simp [StoreStateTx, hsupp, txDeStateOrEmpty, htx]
  refine ⟨?_, hde⟩
  simp only [txDirCnt, txDeStateOrEmpty, hde, Option.getD_some]
  rw [StoreStateTxHandleFiles_cnt, DeStateSignatureAppend_dir_cnt]

theorem StoreStateTxFileOnly_cnt (ctx : DetectCtx) (f : Flow) (fl : StreamFlags)
    (tx : TxInfo) (fnm : Nat) (allocOk : Bool) (i : Fin 2) :
    txDirCnt (StoreStateTxFileOnly ctx f fl tx fnm allocOk) i
      = txDirCnt tx i := by
  by_cases h : f.supportsTxDetect = true
  · cases htx : tx.deState with
    | none =>
        cases allocOk
        · simp [StoreStateTxFileOnly, h, htx, txDirCnt, txDeStateOrEmpty]
        · simp [StoreStateTxFileOnly, h, htx, txDirCnt, txDeStateOrEmpty,
            StoreStateTxHandleFiles_cnt, emptyDetectEngineState, emptyDirState]
    | some d =>
        simp [StoreStateTxFileOnly, h, htx, txDirCnt, txDeStateOrEmpty,
          StoreStateTxHandleFiles_cnt]
  · simp [StoreStateTxFileOnly, h]

/-- Claim C1: in the start driver, for a transaction evaluated for a
candidate signature (with tx detect states supported and allocation
succeeding), a continuation record is appended into the transaction's
detect state for the packet's direction if and only if there was a
decision — all engines with a non-empty sm_list matched (at least one
such engine existing), or DE_STATE_FLAG_SIG_CANT_MATCH was set — and the
transaction is not the last one or its progress has not reached the
direction's completion threshold; and whenever a record is persisted
(the engines then being exhausted or CANT_MATCH set),
DE_STATE_FLAG_FULL_INSPECT is set in the stored flags. -/
theorem c1_start_persist_decision (ctx : DetectCtx) (s : Signature) (f : Flow)
    (fl : StreamFlags) (alversion txId totalTxs : Nat) (tx : TxInfo) (fnm0 : Nat)
    (hsupp : f.supportsTxDetect = true) :
    (txDirCnt (startTxStep ctx s f fl alversion true txId totalTxs tx fnm0).tx
        (dirIndex fl)
      = txDirCnt tx (dirIndex fl) + 1
      ↔ ((allRelevantEnginesMatched s (ctx.engRes s.num txId)
            (ctx.engines (dirIndex fl))
          ∨ DeFlag.sigCantMatch ∈ (startTxEngineRun ctx s fl txId).inspectFlags)
        ∧ (TxIsLast txId totalTxs = false
            ∨ tx.progress (dirIndex fl) < f.completion (dirIndex fl)))) ∧
    (txDirCnt (startTxStep ctx s f fl alversion true txId totalTxs tx fnm0).tx
        (dirIndex fl)
      = txDirCnt tx (dirIndex fl) + 1 →
      (startTxStep ctx s f fl alversion true txId totalTxs tx fnm0).tx.deState
        = some (StoreStateTxHandleFiles ctx
            (DeStateSignatureAppend (txDeStateOrEmpty tx) s.num
              (startTxStoredFlags ctx s fl txId) fl true)
            fl (fnm0 + (startTxEngineRun ctx s fl txId).fileNoMatch)) ∧
      DeFlag.fullInspect ∈ startTxStoredFlags ctx s fl txId) := by
  have hbridge := runEnginesStart_match_iff s (ctx.engRes s.num txId)
    (ctx.engines (dirIndex fl))
  by_cases hdec : startTxAlerted ctx s fl txId = true
      ∨ DeFlag.sigCantMatch ∈ (startTxEngineRun ctx s fl txId).inspectFlags
  · by_cases hcond : TxIsLast txId totalTxs = false
        ∨ ¬(f.completion (dirIndex fl) ≤ tx.progress (dirIndex fl))
    · have htx' : (startTxStep ctx s f fl alversion true txId totalTxs tx fnm0).tx
          = (StoreStateTx ctx f fl alversion tx s (startTxStoredFlags ctx s fl txId)
              (fnm0 + (startTxEngineRun ctx s fl txId).fileNoMatch) true).1 := by
        unfold startTxStep
        rw [if_pos hdec, if_pos hcond]
      have hstored := StoreStateTx_stored ctx f fl alversion tx s
        (startTxStoredFlags ctx s fl txId)
        (fnm0 + (startTxEngineRun ctx s fl txId).fileNoMatch) hsupp
      have hfi : (startTxEngineRun ctx s fl txId).exhausted = true
          ∨ DeFlag.sigCantMatch ∈ (startTxEngineRun ctx s fl txId).inspectFlags := by
        rcases hdec with h | h
        · exact Or.inl (Bool.and_eq_true_iff.mp h).1
        · exact Or.inr h
      have hfull : DeFlag.fullInspect ∈ startTxStoredFlags ctx s fl txId := by
        rw [startTxStoredFlags, if_pos hfi]
        exact Finset.mem_insert_self _ _
      have hrhs : (allRelevantEnginesMatched s (ctx.engRes s.num txId)
            (ctx.engines (dirIndex fl))
          ∨ DeFlag.sigCantMatch ∈ (startTxEngineRun ctx s fl txId).inspectFlags)
          ∧ (TxIsLast txId totalTxs = false
            ∨ tx.progress (dirIndex fl) < f.completion (dirIndex fl)) := by
        constructor
        · rcases hdec with h | h
          · obtain ⟨he, ht⟩ := Bool.and_eq_true_iff.mp h
            exact Or.inl (hbridge.mp ⟨he, of_decide_eq_true ht⟩)
          · exact Or.inr h
        · rcases hcond with h | h
          · exact Or.inl h
          · exact Or.inr (Nat.lt_of_not_le h)
      constructor
      · rw [htx']
        exact iff_of_true hstored.1 hrhs
      · intro _
        rw [htx']
        exact ⟨hstored.2, hfull⟩
    · have htx' : (startTxStep ctx s f fl alversion true txId totalTxs tx fnm0).tx
          = StoreStateTxFileOnly ctx f fl tx
              (fnm0 + (startTxEngineRun ctx s fl txId).fileNoMatch) true := by
        unfold startTxStep
        rw [if_pos hdec, if_neg hcond]
      have hcnt : txDirCnt (startTxStep ctx s f fl alversion true txId totalTxs
          tx fnm0).tx (dirIndex fl) = txDirCnt tx (dirIndex fl) := by
        rw [htx', StoreStateTxFileOnly_cnt]
      constructor
      · rw [hcnt]
        refine iff_of_false (by omega) ?_
        rintro ⟨-, hc⟩
        apply hcond
        rcases hc with h | h
        · exact Or.inl h
        · exact Or.inr (Nat.not_le_of_lt h)
      · intro habs
        rw [hcnt] at habs
        omega
  · have htx' : (startTxStep ctx s f fl alversion true txId totalTxs tx fnm0).tx
        = tx := by
      unfold startTxStep
      rw [if_neg hdec]
    have hcnt : txDirCnt (startTxStep ctx s f fl alversion true txId totalTxs
        tx fnm0).tx (dirIndex fl) = txDirCnt tx (dirIndex fl) := by
      rw [htx']
    constructor
    · rw [hcnt]
      refine iff_of_false (by omega) ?_
      rintro ⟨hd, -⟩
      apply hdec
      rcases hd with h | h
      · left
        have h2 := hbridge.mpr h
        exact Bool.and_eq_true_iff.mpr ⟨h2.1, decide_eq_true h2.2⟩
      · exact Or.inr h
    · intro habs
      rw [hcnt] at habs
      omega

/-- Concrete inputs for the C1 witness: one engine consuming list 0 whose
callback matches, a signature with every list non-empty, a not-yet-done
transaction. -/
def c1Ctx : DetectCtx :=
  { sigArray := fun _ => ⟨7, fun _ => true, [], false⟩,
    engines := fun _ => [⟨0, DeFlag.engineBit 0⟩],
    engRes := fun _ _ _ => InspectResult.sigMatch,
    appHasCb := fun _ => false, appRes := fun _ _ => 0,
    dceRes := fun _ => false, sghFilestoreCnt := 5 }

def c1Sig : Signature := ⟨7, fun _ => true, [], false⟩

def c1Flow : Flow :=
  { supportsTxs := true, supportsTxDetect := true, alstateNull := false,
    stateValid := true, dceProto := false,
    inspectId := fun _ => 0, completion := fun _ => 1,
    txs := [⟨true, fun _ => 0, none⟩],
    deState := none, detectAlversion := fun _ => 0 }

def c1Tx : TxInfo := ⟨true, fun _ => 0, none⟩

/-- Witness for C1 at a concrete input: the single engine matches, the
transaction is last but not done, so a record is appended. -/
theorem c1_start_persist_decision_witness :
    txDirCnt (startTxStep c1Ctx c1Sig c1Flow ⟨true, false, false⟩ 1 true 0 1
        c1Tx 0).tx (dirIndex ⟨true, false, false⟩)
      = txDirCnt c1Tx (dirIndex ⟨true, false, false⟩) + 1 := by
  have h := (c1_start_persist_decision c1Ctx c1Sig c1Flow ⟨true, false, false⟩
    1 0 1 c1Tx 0 rfl).1
  apply h.mpr
  constructor
  · left
    refine ⟨⟨⟨0, DeFlag.engineBit 0⟩, by decide, by decide⟩, ?_⟩
    intro e he hrel
    rfl
  · right
    decide

/-! The continue driver (claims C3, C4, C7, C9). -/

/-- The outcome of DoInspectItem on one stored record: the C return value
(−1, 0 or 1), the mutated record and whether the signature alerted. -/
structure ItemStepOut where
  r : Int
  item : StoredItem
  alerted : Bool

/-- The continue-side engine walk of DoInspectItem (lines 697-720):
engines whose inspect bit is already set in the item's flags, or whose
sm_list is empty for the signature, are skipped; otherwise the result
handling matches the start driver's walk. -/
def runEnginesContAux (s : Signature) (itemFlags : Flags)
    (res : Engine → InspectResult) : List Engine → Nat → Flags → Nat → EngineRun
  | [], total, ifl, fnm => ⟨true, total, ifl, fnm⟩
  | e :: rest, total, ifl, fnm =>
    if e.bit ∉ itemFlags ∧ s.smListNonEmpty e.smList = true then
      match res e with
      | InspectResult.sigMatch =>
          runEnginesContAux s itemFlags res rest (total + 1) (insert e.bit ifl) fnm
      | InspectResult.noMatch => ⟨false, total, ifl, fnm⟩
      | InspectResult.cantMatch =>
          ⟨false, total, insert e.bit (insert DeFlag.sigCantMatch ifl), fnm⟩
      | InspectResult.cantMatchFilestore =>
          ⟨false, total, insert e.bit (insert DeFlag.sigCantMatch ifl), fnm + 1⟩
    else runEnginesContAux s itemFlags res rest total ifl fnm

def runEnginesCont (s : Signature) (itemFlags : Flags)
    (res : Engine → InspectResult) (engines : List Engine) : EngineRun :=
  runEnginesContAux s itemFlags res engines 0 ∅ 0

/-- The FULL_INSPECT re-open rule of DoInspectItem (lines 628-643): when
the item is FULL_INSPECT and previously consumed files (either
FILE_TC_INSPECT or FILE_TS_INSPECT), the direction's FILE_*_NEW flag
clears that direction's FILE_*_INSPECT bit together with FULL_INSPECT. -/
def fullCarveFlags (itemFlags : Flags) (dsf : DirFlags) (fl : StreamFlags) :
    Flags :=
  if DeFlag.fullInspect ∈ itemFlags ∧
      (DeFlag.fileTcInspect ∈ itemFlags ∨ DeFlag.fileTsInspect ∈ itemFlags) then
    if fl.toserver = true ∧ dsf.fileTsNew = true then
      (((if fl.toclient = true ∧ dsf.fileTcNew = true then
            (itemFlags.erase DeFlag.fileTcInspect).erase DeFlag.fullInspect
          else itemFlags).erase DeFlag.fileTsInspect).erase DeFlag.fullInspect)
    else
      if fl.toclient = true ∧ dsf.fileTcNew = true then
        (itemFlags.erase DeFlag.fileTcInspect).erase DeFlag.fullInspect
      else itemFlags
  else itemFlags

/-- The CANT_MATCH re-open rule of DoInspectItem (lines 655-674): `some`
of the cleared flags when the record may re-run, `none` when the item
stays blocked (return 0). -/
def cantCarveStep (fl1 : Flags) (dsf : DirFlags) (fl : StreamFlags) :
    Option Flags :=
  if DeFlag.sigCantMatch ∈ fl1 then
    if fl.toserver = true ∧ DeFlag.fileTsInspect ∈ fl1 ∧ dsf.fileTsNew = true then
      some ((fl1.erase DeFlag.fileTsInspect).erase DeFlag.sigCantMatch)
    else if fl.toclient = true ∧ DeFlag.fileTcInspect ∈ fl1 ∧
        dsf.fileTcNew = true then
      some ((fl1.erase DeFlag.fileTcInspect).erase DeFlag.sigCantMatch)
    else none
  else some fl1

/-- The engine-run tail of DoInspectItem (lines 697-727): the flags to OR
into the item and the alert decision. -/
def contItemEngineOut (ctx : DetectCtx) (fl : StreamFlags) (txId sid : Nat)
    (fl2 : Flags) : Flags × Bool :=
  if 0 < (runEnginesCont (ctx.sigArray sid) fl2
        (ctx.engRes (ctx.sigArray sid).num txId) (ctx.engines (dirIndex fl))).totalMatches
      ∧ ((runEnginesCont (ctx.sigArray sid) fl2
            (ctx.engRes (ctx.sigArray sid).num txId)
            (ctx.engines (dirIndex fl))).exhausted = true
        ∨ DeFlag.sigCantMatch ∈ (runEnginesCont (ctx.sigArray sid) fl2
            (ctx.engRes (ctx.sigArray sid).num txId)
            (ctx.engines (dirIndex fl))).inspectFlags) then
    (insert DeFlag.fullInspect (runEnginesCont (ctx.sigArray sid) fl2
        (ctx.engRes (ctx.sigArray sid).num txId)
        (ctx.engines (dirIndex fl))).inspectFlags,
     (runEnginesCont (ctx.sigArray sid) fl2
        (ctx.engRes (ctx.sigArray sid).num txId)
        (ctx.engines (dirIndex fl))).exhausted)
  else
    ((runEnginesCont (ctx.sigArray sid) fl2
        (ctx.engRes (ctx.sigArray sid).num txId)
        (ctx.engines (dirIndex fl))).inspectFlags,
     false)

/-- DoInspectItem (lines 615-748): the two re-open rules, then the
validity checks (−1 on invalid app state or missing tx), then the engine
walk with the FULL_INSPECT/alert decision, ORing the accumulated
inspect_flags into the record. -/
def DoInspectItem (ctx : DetectCtx) (dsf : DirFlags) (fl : StreamFlags)
    (stateValid txPresent : Bool) (txId : Nat) (item : StoredItem) :
    ItemStepOut :=
  if DeFlag.fullInspect ∈ fullCarveFlags item.flags dsf fl then
    ⟨0, ⟨item.sid, fullCarveFlags item.flags dsf fl⟩, false⟩
  else
    match cantCarveStep (fullCarveFlags item.flags dsf fl) dsf fl with
    | none => ⟨0, ⟨item.sid, fullCarveFlags item.flags dsf fl⟩, false⟩
    | some fl2 =>
      if stateValid = false then ⟨-1, ⟨item.sid, fl2⟩, false⟩
      else if txPresent = false then ⟨-1, ⟨item.sid, fl2⟩, false⟩
      else
        ⟨1, ⟨item.sid, fl2 ∪ (contItemEngineOut ctx fl txId item.sid fl2).1⟩,
         (contItemEngineOut ctx fl txId item.sid fl2).2⟩

/-- The outcome of DoInspectFlowRule on one stored flow record. -/
structure FlowRuleStepOut where
  r : Int
  item : FlowRuleItem
  alerted : Bool

/-- The continue-side AMATCH walk (lines 781-807): resume at the cursor;
a 0 result breaks leaving the cursor at the failing sigmatch, a 2 result
sets CANT_MATCH and continues, a 1 result counts a match; sigmatches
without an AppLayerMatch callback are skipped. -/
def amatchWalkCont (ctx : DetectCtx) (s : Signature) :
    List Nat → Flags → Nat → List Nat × Flags × Nat
  | [], ifl, tm => ([], ifl, tm)
  | sm :: rest, ifl, tm =>
    if ctx.appHasCb sm then
      if ctx.appRes s.num sm = 0 then (sm :: rest, ifl, tm)
      else if ctx.appRes s.num sm = 2 then
        amatchWalkCont ctx s rest (insert DeFlag.sigCantMatch ifl) tm
      else if ctx.appRes s.num sm = 1 then amatchWalkCont ctx s rest ifl (tm + 1)
      else amatchWalkCont ctx s rest ifl tm
    else amatchWalkCont ctx s rest ifl tm

/-- The tail of DoInspectFlowRule (lines 810-823): the alert/FULL_INSPECT
decision when the signature has an AMATCH list, then the flags OR and the
cursor update. -/
def flowRulePost (item : FlowRuleItem) (smRest : List Nat) (ifl : Flags)
    (tm : Nat) (s : Signature) : FlowRuleStepOut :=
  if s.amatch.isEmpty = false then
    if 0 < tm ∧ (smRest.isEmpty = true ∨ DeFlag.sigCantMatch ∈ ifl) then
      ⟨1, ⟨item.sid, item.flags ∪ insert DeFlag.fullInspect ifl, smRest⟩,
       smRest.isEmpty⟩
    else ⟨1, ⟨item.sid, item.flags ∪ ifl, smRest⟩, false⟩
  else ⟨1, ⟨item.sid, item.flags ∪ ifl, smRest⟩, false⟩

/-- DoInspectFlowRule (lines 753-840): records already FULL_INSPECT or
CANT_MATCH are skipped (return 0); with a non-NULL cursor a NULL app
state aborts (−1); otherwise the AMATCH walk resumes at the cursor. -/
def DoInspectFlowRule (ctx : DetectCtx) (alstateNull : Bool)
    (item : FlowRuleItem) : FlowRuleStepOut :=
  if DeFlag.fullInspect ∈ item.flags ∨ DeFlag.sigCantMatch ∈ item.flags then
    ⟨0, item, false⟩
  else
    if item.nm.isEmpty then
      flowRulePost item [] ∅ 0 (ctx.sigArray item.sid)
    else if alstateNull then ⟨-1, item, false⟩
    else
      flowRulePost item
        (amatchWalkCont ctx (ctx.sigArray item.sid) item.nm ∅ 0).1
        (amatchWalkCont ctx (ctx.sigArray item.sid) item.nm ∅ 0).2.1
        (amatchWalkCont ctx (ctx.sigArray item.sid) item.nm ∅ 0).2.2
        (ctx.sigArray item.sid)

/-- One record-inspection event of the continue driver: which store the
record came from, the transaction id, the slot (the `state_cnt` value
when the record was processed) and the inspector's return value. -/
structure ContEvent where
  isFlowRule : Bool
  txId : Nat
  slot : Nat
  r : Int
deriving DecidableEq, Repr

/-- The inner slot loop of the continue driver over one chunk prefix
(lines 905-919 / 937-949): process records in order, stopping at the
first negative return (`goto end`). -/
def contChunkItems {α : Type} (proc : α → Int × α × Option (Nat × Nat))
    (mkEv : Nat → Int → ContEvent) :
    List α → Nat → List α × List ContEvent × List (Nat × Nat) × Bool
  | [], _ => ([], [], [], true)
  | a :: rest, sc =>
    if (proc a).1 < 0 then
      ((proc a).2.1 :: rest, [mkEv sc (proc a).1], (proc a).2.2.toList, false)
    else
      ((proc a).2.1 :: (contChunkItems proc mkEv rest (sc + 1)).1,
       mkEv sc (proc a).1 :: (contChunkItems proc mkEv rest (sc + 1)).2.1,
       (proc a).2.2.toList ++ (contChunkItems proc mkEv rest (sc + 1)).2.2.1,
       (contChunkItems proc mkEv rest (sc + 1)).2.2.2)

/-- The chunk walk of the continue driver (lines 903-920 / 936-950): in
each chunk, slots `0 ≤ store_cnt < DE_STATE_CHUNK_SIZE` are processed
while `state_cnt < cnt`; `state_cnt` (`sc`) carries across chunks — and,
in the source, leaks from the transaction loop into the flow-rule loop.
Returns the updated chunks, the events, the alerts, the final
`state_cnt` and whether the walk completed without a negative return. -/
def contStoreLoop {α : Type} (proc : α → Int × α × Option (Nat × Nat))
    (mkEv : Nat → Int → ContEvent) (cnt : Nat) :
    List (List α) → Nat →
      List (List α) × List ContEvent × List (Nat × Nat) × Nat × Bool
  | [], sc => ([], [], [], sc, true)
  | c :: rest, sc =>
    if (contChunkItems proc mkEv (c.take (min DE_STATE_CHUNK_SIZE (cnt - sc))) sc).2.2.2 then
      (((contChunkItems proc mkEv (c.take (min DE_STATE_CHUNK_SIZE (cnt - sc))) sc).1
          ++ c.drop (min DE_STATE_CHUNK_SIZE (cnt - sc)))
        :: (contStoreLoop proc mkEv cnt rest (sc + min DE_STATE_CHUNK_SIZE (cnt - sc))).1,
       (contChunkItems proc mkEv (c.take (min DE_STATE_CHUNK_SIZE (cnt - sc))) sc).2.1
         ++ (contStoreLoop proc mkEv cnt rest (sc + min DE_STATE_CHUNK_SIZE (cnt - sc))).2.1,
       (contChunkItems proc mkEv (c.take (min DE_STATE_CHUNK_SIZE (cnt - sc))) sc).2.2.1
         ++ (contStoreLoop proc mkEv cnt rest (sc + min DE_STATE_CHUNK_SIZE (cnt - sc))).2.2.1,
       (contStoreLoop proc mkEv cnt rest (sc + min DE_STATE_CHUNK_SIZE (cnt - sc))).2.2.2.1,
       (contStoreLoop proc mkEv cnt rest (sc + min DE_STATE_CHUNK_SIZE (cnt - sc))).2.2.2.2)
    else
      (((contChunkItems proc mkEv (c.take (min DE_STATE_CHUNK_SIZE (cnt - sc))) sc).1
          ++ c.drop (min DE_STATE_CHUNK_SIZE (cnt - sc))) :: rest,
       (contChunkItems proc mkEv (c.take (min DE_STATE_CHUNK_SIZE (cnt - sc))) sc).2.1,
       (contChunkItems proc mkEv (c.take (min DE_STATE_CHUNK_SIZE (cnt - sc))) sc).2.2.1,
       sc + min DE_STATE_CHUNK_SIZE (cnt - sc), false)

/-- The per-record processor the transaction loop hands to the chunk
walk: DoInspectItem plus the PacketAlertAppend event (suppressed for
NOALERT signatures, line 738). -/
def contTxItemProc (ctx : DetectCtx) (fl : StreamFlags) (stateValid : Bool)
    (txPresent : Bool) (txId : Nat) (dsf : DirFlags) :
    StoredItem → Int × StoredItem × Option (Nat × Nat) :=
  fun it =>
    ((DoInspectItem ctx dsf fl stateValid txPresent txId it).r,
     (DoInspectItem ctx dsf fl stateValid txPresent txId it).item,
     if (DoInspectItem ctx dsf fl stateValid txPresent txId it).alerted = true
         ∧ (ctx.sigArray it.sid).noalert = false then
       some ((ctx.sigArray it.sid).num, txId)
     else none)

/-- The per-record processor of the flow-rule loop: DoInspectFlowRule
plus its alert event (tx id 0, line 831). -/
def flowRuleProc (ctx : DetectCtx) (alstateNull : Bool) :
    FlowRuleItem → Int × FlowRuleItem × Option (Nat × Nat) :=
  fun it =>
    ((DoInspectFlowRule ctx alstateNull it).r,
     (DoInspectFlowRule ctx alstateNull it).item,
     if (DoInspectFlowRule ctx alstateNull it).alerted = true
         ∧ (ctx.sigArray it.sid).noalert = false then
       some ((ctx.sigArray it.sid).num, 0)
     else none)

/-- The chunk walk the transaction loop performs for one transaction
with a detect state (lines 901-920), starting `state_cnt` at 0. -/
def contTxRun (ctx : DetectCtx) (fl : StreamFlags) (stateValid : Bool)
    (i : Nat) (tx : TxInfo) (de : DetectEngineState) :
    List (List StoredItem) × List ContEvent × List (Nat × Nat) × Nat × Bool :=
  contStoreLoop (contTxItemProc ctx fl stateValid tx.present i
      (de.dirState (dirIndex fl)).dflags)
    (fun sc' r => ⟨false, i, sc', r⟩)
    (de.dirState (dirIndex fl)).cnt (de.dirState (dirIndex fl)).chunks 0

/-- The tx list with transaction `i`'s detect-state direction chunks
replaced (the in-place mutation of the records). -/
def contTxUpdated (fl : StreamFlags) (txs : List TxInfo) (i : Nat) (tx : TxInfo)
    (de : DetectEngineState) (chunks' : List (List StoredItem)) : List TxInfo :=
  txs.set i { tx with deState := some (DetectEngineState.mk
    (Function.update de.dirState (dirIndex fl)
      { de.dirState (dirIndex fl) with chunks := chunks' })) }

/-- The transaction loop of DeStateDetectContinueDetection (lines
868-928): transactions are visited in ascending id; a NULL tx or a tx
without a detect state is skipped with `continue` (the latter skipping
the in-progress break check, exactly as in the source); otherwise the
direction's stored records are inspected, a negative return aborts the
whole call, and an in-progress tx breaks the loop after its own records
were processed.  Returns the updated txs, events, alerts, the leaked
`state_cnt` and the no-abort flag.  (The de_state_sig_array markings,
which the claims below do not mention, are not modelled; they are the
only consumers of the in-progress/next-tx information inside
DoInspectItem.) -/
def contTxLoop (ctx : DetectCtx) (fl : StreamFlags) (stateValid : Bool)
    (completion : Nat) :
    List Nat → List TxInfo → Nat →
      List TxInfo × List ContEvent × List (Nat × Nat) × Nat × Bool
  | [], txs, sc => (txs, [], [], sc, true)
  | i :: rest, txs, sc =>
    match txs.get? i with
    | none => contTxLoop ctx fl stateValid completion rest txs sc
    | some tx =>
      if tx.present = false then
        contTxLoop ctx fl stateValid completion rest txs sc
      else
        match tx.deState with
        | none => contTxLoop ctx fl stateValid completion rest txs sc
        | some de =>
          if (contTxRun ctx fl stateValid i tx de).2.2.2.2 = false then
            (contTxUpdated fl txs i tx de (contTxRun ctx fl stateValid i tx de).1,
             (contTxRun ctx fl stateValid i tx de).2.1,
             (contTxRun ctx fl stateValid i tx de).2.2.1,
             (contTxRun ctx fl stateValid i tx de).2.2.2.1, false)
          else if tx.progress (dirIndex fl) < completion then
            (contTxUpdated fl txs i tx de (contTxRun ctx fl stateValid i tx de).1,
             (contTxRun ctx fl stateValid i tx de).2.1,
             (contTxRun ctx fl stateValid i tx de).2.2.1,
             (contTxRun ctx fl stateValid i tx de).2.2.2.1, true)
          else
            ((contTxLoop ctx fl stateValid completion rest
                (contTxUpdated fl txs i tx de (contTxRun ctx fl stateValid i tx de).1)
                (contTxRun ctx fl stateValid i tx de).2.2.2.1).1,
             (contTxRun ctx fl stateValid i tx de).2.1
               ++ (contTxLoop ctx fl stateValid completion rest
                (contTxUpdated fl txs i tx de (contTxRun ctx fl stateValid i tx de).1)
                (contTxRun ctx fl stateValid i tx de).2.2.2.1).2.1,
             (contTxRun ctx fl stateValid i tx de).2.2.1
               ++ (contTxLoop ctx fl stateValid completion rest
                (contTxUpdated fl txs i tx de (contTxRun ctx fl stateValid i tx de).1)
                (contTxRun ctx fl stateValid i tx de).2.2.2.1).2.2.1,
             (contTxLoop ctx fl stateValid completion rest
                (contTxUpdated fl txs i tx de (contTxRun ctx fl stateValid i tx de).1)
                (contTxRun ctx fl stateValid i tx de).2.2.2.1).2.2.2.1,
             (contTxLoop ctx fl stateValid completion rest
                (contTxUpdated fl txs i tx de (contTxRun ctx fl stateValid i tx de).1)
                (contTxRun ctx fl stateValid i tx de).2.2.2.1).2.2.2.2)

/-- The result of a continue-driver call: the updated flow, the trace of
record inspections, the alerts, and whether a negative inspector return
aborted the call (`goto end`). -/
structure ContOut where
  flow : Flow
  events : List ContEvent
  alerts : List (Nat × Nat)
  aborted : Bool

/-- The transaction phase of the continue driver: the tx loop over the
ids from the direction's inspect id (lines 865-928), or the no-op result
for protocols without transactions. -/
def contTxPhase (ctx : DetectCtx) (f : Flow) (fl : StreamFlags) :
    List TxInfo × List ContEvent × List (Nat × Nat) × Nat × Bool :=
  if f.supportsTxs then
    contTxLoop ctx fl f.stateValid (f.completion (dirIndex fl))
      (List.range' (f.inspectId (dirIndex fl))
        (f.txs.length - f.inspectId (dirIndex fl))) f.txs 0
  else (f.txs, [], [], 0, true)

/-- The flow-rule chunk walk of the continue driver (lines 931-950);
`sc` is the `state_cnt` value leaked from the transaction loop. -/
def contFlowRun (ctx : DetectCtx) (f : Flow) (fl : StreamFlags)
    (fd : DetectEngineStateFlow) (sc : Nat) :
    List (List FlowRuleItem) × List ContEvent × List (Nat × Nat) × Nat × Bool :=
  contStoreLoop (flowRuleProc ctx f.alstateNull) (fun sc' r => ⟨true, 0, sc', r⟩)
    (fd.dirState (dirIndex fl)).cnt (fd.dirState (dirIndex fl)).chunks sc

/-- The flow after the continue driver's flow-rule walk replaced the
flow-scoped chunks. -/
def contFlowUpdated (f : Flow) (fl : StreamFlags) (fd : DetectEngineStateFlow)
    (txs' : List TxInfo) (chunks2 : List (List FlowRuleItem)) : Flow :=
  { f with txs := txs', deState := some (DetectEngineStateFlow.mk
      (Function.update fd.dirState (dirIndex fl)
        { fd.dirState (dirIndex fl) with chunks := chunks2 })) }

/-- DeStateDetectContinueDetection (lines 842-959).  An invalid app
state returns immediately; the transaction loop runs for tx-supporting
protocols; then, unless aborted, the flow-scoped records are inspected —
with `state_cnt` carried over from the transaction loop, as in the
source — and the state version is stored on completion. -/
def DeStateDetectContinueDetection (ctx : DetectCtx) (f : Flow)
    (fl : StreamFlags) (alversion : Nat) : ContOut :=
  if f.supportsTxs = true ∧ f.stateValid = false then ⟨f, [], [], false⟩
  else if (contTxPhase ctx f fl).2.2.2.2 = false then
    ⟨{ f with txs := (contTxPhase ctx f fl).1 }, (contTxPhase ctx f fl).2.1,
     (contTxPhase ctx f fl).2.2.1, true⟩
  else
    match f.deState with
    | none =>
        ⟨{ f with txs := (contTxPhase ctx f fl).1 }, (contTxPhase ctx f fl).2.1,
         (contTxPhase ctx f fl).2.2.1, false⟩
    | some fd =>
        if (contFlowRun ctx f fl fd (contTxPhase ctx f fl).2.2.2.1).2.2.2.2 then
          ⟨DeStateStoreStateVersion
              (contFlowUpdated f fl fd (contTxPhase ctx f fl).1
                (contFlowRun ctx f fl fd (contTxPhase ctx f fl).2.2.2.1).1)
              alversion fl,
           (contTxPhase ctx f fl).2.1
             ++ (contFlowRun ctx f fl fd (contTxPhase ctx f fl).2.2.2.1).2.1,
           (contTxPhase ctx f fl).2.2.1
             ++ (contFlowRun ctx f fl fd (contTxPhase ctx f fl).2.2.2.1).2.2.1,
           false⟩
        else
          ⟨contFlowUpdated f fl fd (contTxPhase ctx f fl).1
              (contFlowRun ctx f fl fd (contTxPhase ctx f fl).2.2.2.1).1,
           (contTxPhase ctx f fl).2.1
             ++ (contFlowRun ctx f fl fd (contTxPhase ctx f fl).2.2.2.1).2.1,
           (contTxPhase ctx f fl).2.2.1
             ++ (contFlowRun ctx f fl fd (contTxPhase ctx f fl).2.2.2.1).2.2.1,
           true⟩

/-- A context whose engine table is empty and whose signatures have every
list non-empty (concrete input for the C3 theorems). -/
def c3Ctx : DetectCtx :=
  { sigArray := fun i => ⟨i, fun _ => true, [], false⟩,
    engines := fun _ => [],
    engRes := fun _ _ _ => InspectResult.noMatch,
    appHasCb := fun _ => true, appRes := fun _ _ => 0,
    dceRes := fun _ => false, sghFilestoreCnt := 5 }

def c3Item : StoredItem := ⟨5, {DeFlag.fullInspect, DeFlag.fileTsInspect}⟩

def c3Dsf : DirFlags := ⟨false, true, false⟩

/-- Claim C3 counterexample: a record with FULL_INSPECT and only
FILE_TS_INSPECT, processed on a TOCLIENT packet whose direction state
raises FILE_TC_NEW.  The record lacks the corresponding FILE_TC_INSPECT
bit, so by the claim FULL_INSPECT must remain set — but DoInspectItem
clears it, because the FULL_INSPECT re-open rule (lines 628-643) only
requires one of the two FILE_*_INSPECT bits, not the corresponding
one. -/
theorem c3_counterexample :
    DeFlag.fullInspect ∈ c3Item.flags ∧
    DeFlag.fileTcInspect ∉ c3Item.flags ∧
    (⟨false, true, false⟩ : StreamFlags).toclient = true ∧
    c3Dsf.fileTcNew = true ∧
    DeFlag.fullInspect ∉
      (DoInspectItem c3Ctx c3Dsf ⟨false, true, false⟩ true true 0 c3Item).item.flags ∧
    (DoInspectItem c3Ctx c3Dsf ⟨false, true, false⟩ true true 0 c3Item).r = 1 := by
  decide

theorem fullCarveFlags_subset (itemFlags : Flags) (dsf : DirFlags)
    (fl : StreamFlags) : fullCarveFlags itemFlags dsf fl ⊆ itemFlags := by
  unfold fullCarveFlags
  split_ifs
  · exact Finset.Subset.trans (Finset.erase_subset _ _)
      (Finset.Subset.trans (Finset.erase_subset _ _)
        (Finset.Subset.trans (Finset.erase_subset _ _) (Finset.erase_subset _ _)))
  · exact Finset.Subset.trans (Finset.erase_subset _ _) (Finset.erase_subset _ _)
  · exact Finset.Subset.trans (Finset.erase_subset _ _) (Finset.erase_subset _ _)
  · exact Finset.Subset.refl _
  · exact Finset.Subset.refl _

theorem fullCarveFlags_mem_cant (itemFlags : Flags) (dsf : DirFlags)
    (fl : StreamFlags) (h : DeFlag.sigCantMatch ∈ itemFlags) :
    DeFlag.sigCantMatch ∈ fullCarveFlags itemFlags dsf fl := by
  unfold fullCarveFlags
  split_ifs <;> simp [Finset.mem_erase, h]

/-- Claim C3 (amended): across a continue call, FULL_INSPECT persists on
a record unless the record had some FILE_*_INSPECT bit (either one) and
the packet direction's FILE_*_NEW flag is raised in the direction state;
CANT_MATCH persists unless the record had the FILE_*_INSPECT bit
corresponding to the packet's direction and that direction's FILE_*_NEW
is raised; and DoInspectFlowRule never clears any flag of a flow-scoped
record.  (The engine walk may re-add a cleared flag in the same call;
the statements below give the persistence side.) -/
theorem c3_flag_stickiness_amended (ctx : DetectCtx) (dsf : DirFlags)
    (fl : StreamFlags) (sv tp : Bool) (txId : Nat) (item : StoredItem) :
    (DeFlag.fullInspect ∈ item.flags →
      ¬((DeFlag.fileTcInspect ∈ item.flags ∨ DeFlag.fileTsInspect ∈ item.flags) ∧
        ((fl.toclient = true ∧ dsf.fileTcNew = true) ∨
          (fl.toserver = true ∧ dsf.fileTsNew = true))) →
      DeFlag.fullInspect ∈ (DoInspectItem ctx dsf fl sv tp txId item).item.flags) ∧
    (DeFlag.sigCantMatch ∈ item.flags →
      ¬((fl.toserver = true ∧ DeFlag.fileTsInspect ∈ item.flags ∧
          dsf.fileTsNew = true) ∨
        (fl.toclient = true ∧ DeFlag.fileTcInspect ∈ item.flags ∧
          dsf.fileTcNew = true)) →
      DeFlag.sigCantMatch ∈ (DoInspectItem ctx dsf fl sv tp txId item).item.flags) ∧
    (∀ (ns : Bool) (itF : FlowRuleItem),
      itF.flags ⊆ (DoInspectFlowRule ctx ns itF).item.flags) := by
  refine ⟨?_, ?_, ?_⟩
  · intro hfull hnc
    have hcarve : fullCarveFlags item.flags dsf fl = item.flags := by
      by_cases hfb : DeFlag.fileTcInspect ∈ item.flags ∨
          DeFlag.fileTsInspect ∈ item.flags
      · have hts : ¬(fl.toserver = true ∧ dsf.fileTsNew = true) :=
          fun h => hnc ⟨hfb, Or.inr h⟩
        have htc : ¬(fl.toclient = true ∧ dsf.fileTcNew = true) :=
          fun h => hnc ⟨hfb, Or.inl h⟩
        unfold fullCarveFlags
        rw [if_pos ⟨hfull, hfb⟩, if_neg hts, if_neg htc]
      · unfold fullCarveFlags
        rw [if_neg (fun h => hfb h.2)]
    unfold DoInspectItem
    rw [hcarve, if_pos hfull]
    exact hfull
  · intro hcant hnc
    have hcant1 : DeFlag.sigCantMatch ∈ fullCarveFlags item.flags dsf fl :=
      fullCarveFlags_mem_cant item.flags dsf fl hcant
    have hnone : cantCarveStep (fullCarveFlags item.flags dsf fl) dsf fl = none := by
      unfold cantCarveStep
      rw [if_pos hcant1]
      rw [if_neg, if_neg]
      · rintro ⟨htc, hmem, hnew⟩
        exact hnc (Or.inr ⟨htc, fullCarveFlags_subset item.flags dsf fl hmem, hnew⟩)
      · rintro ⟨hts, hmem, hnew⟩
        exact hnc (Or.inl ⟨hts, fullCarveFlags_subset item.flags dsf fl hmem, hnew⟩)
    unfold DoInspectItem
    by_cases hf : DeFlag.fullInspect ∈ fullCarveFlags item.flags dsf fl
    · rw [if_pos hf]
      exact hcant1
    · rw [if_neg hf, hnone]
      exact hcant1
  · intro ns itF
    unfold DoInspectFlowRule
    split_ifs with h1 h2 h3
    · exact Finset.Subset.refl _
    · unfold flowRulePost
      split_ifs <;> exact Finset.subset_union_left
    · exact Finset.Subset.refl _
    · unfold flowRulePost
      split_ifs <;> exact Finset.subset_union_left

/-- Witness for the amended C3: a FULL_INSPECT|CANT_MATCH record with no
FILE_*_INSPECT bits keeps both flags, and a flow-scoped record's flags
are preserved. -/
theorem c3_flag_stickiness_amended_witness :
    DeFlag.fullInspect ∈ (DoInspectItem c3Ctx c3Dsf ⟨false, true, false⟩ true true 0
        ⟨1, {DeFlag.fullInspect, DeFlag.sigCantMatch}⟩).item.flags ∧
    DeFlag.sigCantMatch ∈ (DoInspectItem c3Ctx c3Dsf ⟨false, true, false⟩ true true 0
        ⟨1, {DeFlag.fullInspect, DeFlag.sigCantMatch}⟩).item.flags ∧
    ({DeFlag.engineBit 2} : Flags) ⊆
      (DoInspectFlowRule c3Ctx false ⟨2, {DeFlag.engineBit 2}, []⟩).item.flags := by
  refine ⟨?_, ?_, ?_⟩
  · exact (c3_flag_stickiness_amended c3Ctx c3Dsf ⟨false, true, false⟩ true true 0
      ⟨1, {DeFlag.fullInspect, DeFlag.sigCantMatch}⟩).1 (by decide) (by decide)
  · exact (c3_flag_stickiness_amended c3Ctx c3Dsf ⟨false, true, false⟩ true true 0
      ⟨1, {DeFlag.fullInspect, DeFlag.sigCantMatch}⟩).2.1 (by decide) (by decide)
  · exact (c3_flag_stickiness_amended c3Ctx c3Dsf ⟨false, true, false⟩ true true 0
      ⟨1, {DeFlag.fullInspect, DeFlag.sigCantMatch}⟩).2.2 false
      ⟨2, {DeFlag.engineBit 2}, []⟩

/-! Abort discipline of the continue driver (claim C9). -/

/-- Trace well-formedness: when a loop completed (`true`), every recorded
inspector return is non-negative; when it aborted (`false`), the trace is
a non-negative prefix followed by exactly one negative event, with
nothing after it. -/
def TraceOk (evs : List ContEvent) : Bool → Prop
  | true => ∀ e ∈ evs, 0 ≤ e.r
  | false => ∃ pre e, evs = pre ++ [e] ∧ e.r < 0 ∧ ∀ e' ∈ pre, 0 ≤ e'.r

theorem TraceOk_append {a b : List ContEvent} {ok : Bool}
    (ha : ∀ e ∈ a, 0 ≤ e.r) (hb : TraceOk b ok) : TraceOk (a ++ b) ok := by
  cases ok with
  | true =>
      intro e he
      rcases List.mem_append.mp he with h | h
      · exact ha e h
      · exact hb e h
  | false =>
      obtain ⟨pre, e, hsplit, hneg, hpre⟩ := hb
      refine ⟨a ++ pre, e, by rw [hsplit, List.append_assoc], hneg, ?_⟩
      intro e' he'
      rcases List.mem_append.mp he' with h | h
      · exact ha e' h
      · exact hpre e' h

theorem TraceOk_nonneg_of_true {a : List ContEvent} (h : TraceOk a true) :
    ∀ e ∈ a, 0 ≤ e.r := h

theorem contChunkItems_traceOk {α : Type} (proc : α → Int × α × Option (Nat × Nat))
    (mkEv : Nat → Int → ContEvent) (hmk : ∀ sc r, (mkEv sc r).r = r) :
    ∀ (L : List α) (sc : Nat),
      TraceOk (contChunkItems proc mkEv L sc).2.1
        (contChunkItems proc mkEv L sc).2.2.2
  | [], sc => by
      intro e he
      simp [contChunkItems] at he
  | a :: rest, sc => by
      have ih := contChunkItems_traceOk proc mkEv hmk rest (sc + 1)
      by_cases hr : (proc a).1 < 0
      · unfold contChunkItems
        rw [if_pos hr]
        exact ⟨[], mkEv sc (proc a).1, rfl, by rw [hmk]; exact hr, by simp⟩
      · unfold contChunkItems
        rw [if_neg hr]
        rcases hok : (contChunkItems proc mkEv rest (sc + 1)).2.2.2 with _ | _
        · rw [hok] at ih
          obtain ⟨pre, e, hsplit, hneg, hpre⟩ := ih
          refine ⟨mkEv sc (proc a).1 :: pre, e, by rw [hsplit]; rfl, hneg, ?_⟩
          intro e' he'
          rcases List.mem_cons.mp he' with rfl | h
          · rw [hmk]
            omega
          · exact hpre e' h
        · rw [hok] at ih
          intro e he
          rcases List.mem_cons.mp he with rfl | h
          · rw [hmk]
            omega
          · exact ih e h

theorem contStoreLoop_traceOk {α : Type} (proc : α → Int × α × Option (Nat × Nat))
    (mkEv : Nat → Int → ContEvent) (hmk : ∀ sc r, (mkEv sc r).r = r) (cnt : Nat) :
    ∀ (chunks : List (List α)) (sc : Nat),
      TraceOk (contStoreLoop proc mkEv cnt chunks sc).2.1
        (contStoreLoop proc mkEv cnt chunks sc).2.2.2.2
  | [], sc => by
      intro e he
      simp [contStoreLoop] at he
  | c :: rest, sc => by
      have hA := contChunkItems_traceOk proc mkEv hmk
        (c.take (min DE_STATE_CHUNK_SIZE (cnt - sc))) sc
      have ih := contStoreLoop_traceOk proc mkEv hmk cnt rest
        (sc + min DE_STATE_CHUNK_SIZE (cnt - sc))
      unfold contStoreLoop
      rcases hok : (contChunkItems proc mkEv
          (c.take (min DE_STATE_CHUNK_SIZE (cnt - sc))) sc).2.2.2 with _ | _
      · rw [hok] at hA
        rw [if_neg Bool.false_ne_true]
        exact hA
      · rw [hok] at hA
        rw [if_pos rfl]
        exact TraceOk_append hA ih

theorem contTxLoop_traceOk (ctx : DetectCtx) (fl : StreamFlags)
    (stateValid : Bool) (completion : Nat) :
    ∀ (ids : List Nat) (txs : List TxInfo) (sc : Nat),
      TraceOk (contTxLoop ctx fl stateValid completion ids txs sc).2.1
        (contTxLoop ctx fl stateValid completion ids txs sc).2.2.2.2
  | [], txs, sc => by
      intro e he
      simp [contTxLoop] at he
  | i :: rest, txs, sc => by
      unfold contTxLoop
      cases hget : txs.get? i with
      | none => exact contTxLoop_traceOk ctx fl stateValid completion rest txs sc
      | some tx =>
          dsimp only
          by_cases hpres : tx.present = false
          · rw [if_pos hpres]
            exact contTxLoop_traceOk ctx fl stateValid completion rest txs sc
          · rw [if_neg hpres]
            cases hde : tx.deState with
            | none => exact contTxLoop_traceOk ctx fl stateValid completion rest txs sc
            | some de =>
                dsimp only
                have hrun : TraceOk (contTxRun ctx fl stateValid i tx de).2.1
                    (contTxRun ctx fl stateValid i tx de).2.2.2.2 :=
                  contStoreLoop_traceOk _ _ (fun _ _ => rfl) _ _ _
                rcases hok : (contTxRun ctx fl stateValid i tx de).2.2.2.2 with _ | _
                · rw [hok] at hrun
                  rw [if_pos rfl]
                  exact hrun
                · rw [hok] at hrun
                  rw [if_neg (by simp)]
                  by_cases hprog : tx.progress (dirIndex fl) < completion
                  · rw [if_pos hprog]
                    exact hrun
                  · rw [if_neg hprog]
                    exact TraceOk_append hrun
                      (contTxLoop_traceOk ctx fl stateValid completion rest _ _)

theorem contTxPhase_traceOk (ctx : DetectCtx) (f : Flow) (fl : StreamFlags) :
    TraceOk (contTxPhase ctx f fl).2.1 (contTxPhase ctx f fl).2.2.2.2 := by
  unfold contTxPhase
  split_ifs with h
  · exact contTxLoop_traceOk ctx fl f.stateValid (f.completion (dirIndex fl)) _ _ _
  · intro e he
    simp at he

theorem continueDetection_traceOk (ctx : DetectCtx) (f : Flow)
    (fl : StreamFlags) (alversion : Nat) :
    TraceOk (DeStateDetectContinueDetection ctx f fl alversion).events
      (!(DeStateDetectContinueDetection ctx f fl alversion).aborted) := by
  have htx := contTxPhase_traceOk ctx f fl
  unfold DeStateDetectContinueDetection
  split_ifs with h1 h2
  · intro e he
    simp at he
  · rw [h2] at htx
    exact htx
  · have hok : (contTxPhase ctx f fl).2.2.2.2 = true := by
      cases hb : (contTxPhase ctx f fl).2.2.2.2 with
      | false => exact absurd hb h2
      | true => rfl
    rw [hok] at htx
    cases hde : f.deState with
    | none => exact htx
    | some fd =>
        dsimp only
        have hfr := contStoreLoop_traceOk (flowRuleProc ctx f.alstateNull)
          (fun sc' r => ⟨true, 0, sc', r⟩) (fun _ _ => rfl)
          (fd.dirState (dirIndex fl)).cnt (fd.dirState (dirIndex fl)).chunks
          (contTxPhase ctx f fl).2.2.2.1
        have hfr2 : TraceOk (contFlowRun ctx f fl fd (contTxPhase ctx f fl).2.2.2.1).2.1
            (contFlowRun ctx f fl fd (contTxPhase ctx f fl).2.2.2.1).2.2.2.2 := hfr
        rcases hok2 : (contFlowRun ctx f fl fd (contTxPhase ctx f fl).2.2.2.1).2.2.2.2
            with _ | _
        · rw [hok2] at hfr2
          rw [if_neg Bool.false_ne_true]
          exact TraceOk_append htx hfr2
        · rw [hok2] at hfr2
          rw [if_pos rfl]
          exact TraceOk_append htx hfr2

/-- Claim C9: if a per-record inspector (DoInspectItem or
DoInspectFlowRule) returns −1, the continue driver aborts the remainder
of the packet's stateful inspection: every recorded inspection event
except possibly the final one has a non-negative return value (so no
stored record — transactional or flow-scoped — is inspected after a
negative return), and when the call was not aborted every event is
non-negative. -/
theorem c9_negative_inspector_aborts (ctx : DetectCtx) (f : Flow)
    (fl : StreamFlags) (alversion : Nat) :
    (∀ e ∈ (DeStateDetectContinueDetection ctx f fl alversion).events.dropLast,
      0 ≤ e.r) ∧
    ((DeStateDetectContinueDetection ctx f fl alversion).aborted = false →
      ∀ e ∈ (DeStateDetectContinueDetection ctx f fl alversion).events, 0 ≤ e.r) := by
  have h := continueDetection_traceOk ctx f fl alversion
  constructor
  · cases hab : (DeStateDetectContinueDetection ctx f fl alversion).aborted with
    | false =>
        rw [hab] at h
        intro e he
        exact h e (List.dropLast_subset _ he)
    | true =>
        rw [hab] at h
        obtain ⟨pre, e0, hsplit, _, hpre⟩ := h
        rw [hsplit, List.dropLast_concat]
        exact hpre
  · intro hab
    rw [hab] at h
    exact h

instance : Inhabited TxInfo := ⟨⟨false, fun _ => 0, none⟩⟩

/-- A context with an empty engine table and AMATCH-bearing signatures
(concrete input for the C4, C7 and C9 theorems). -/
def c4Ctx : DetectCtx :=
  { sigArray := fun i => ⟨i, fun _ => true, [0], false⟩,
    engines := fun _ => [],
    engRes := fun _ _ _ => InspectResult.noMatch,
    appHasCb := fun _ => true, appRes := fun _ _ => 1,
    dceRes := fun _ => false, sghFilestoreCnt := 5 }

/-- A tx detect state carrying exactly one stored record (sid 3, clear
flags) in each direction. -/
def c4TxDe : DetectEngineState :=
  ⟨fun _ => ⟨[(⟨3, ∅⟩ : StoredItem) :: List.replicate 14 default], 1, 0,
    ⟨false, false, false⟩⟩⟩

/-- A flow detect state carrying exactly one stored flow record (sid 9,
clear flags, NULL cursor) in each direction. -/
def c4FlowDe : DetectEngineStateFlow :=
  ⟨fun _ => ⟨[(⟨9, ∅, []⟩ : FlowRuleItem) :: List.replicate 14 default], 1, 0,
    ⟨false, false, false⟩⟩⟩

/-- A flow with one completed transaction holding one stored record, and
one stored flow-scoped record. -/
def c4Flow : Flow :=
  { supportsTxs := true, supportsTxDetect := true, alstateNull := false,
    stateValid := true, dceProto := false,
    inspectId := fun _ => 0, completion := fun _ => 1,
    txs := [⟨true, fun _ => 5, some c4TxDe⟩],
    deState := some c4FlowDe, detectAlversion := fun _ => 0 }

/-- The same flow with the transaction's stored record removed. -/
def c4FlowNoTxRecord : Flow :=
  { supportsTxs := true, supportsTxDetect := true, alstateNull := false,
    stateValid := true, dceProto := false,
    inspectId := fun _ => 0, completion := fun _ => 1,
    txs := [⟨true, fun _ => 5, none⟩],
    deState := some c4FlowDe, detectAlversion := fun _ => 0 }

/-- Claim C4 is wrong about the code and right about the intent: the
continue driver must process every stored FlowItem of the direction, but
`state_cnt` is not reset between the transaction loop and the flow-rule
loop (lines 849/902/938).  On this flow — one transactional record
processed, one stored FlowItem, no abort — the trace contains the
transactional record's event and no flow-rule event at all; removing the
transactional record makes the same FlowItem get processed. -/
theorem c4_flow_rules_skipped_after_tx_records :
    (DeStateDetectContinueDetection c4Ctx c4Flow ⟨true, false, false⟩ 1).events
      = [⟨false, 0, 0, 1⟩] ∧
    flowDirCnt c4Flow (dirIndex ⟨true, false, false⟩) = 1 ∧
    (DeStateDetectContinueDetection c4Ctx c4Flow ⟨true, false, false⟩ 1).aborted
      = false ∧
    (DeStateDetectContinueDetection c4Ctx c4FlowNoTxRecord
        ⟨true, false, false⟩ 1).events = [⟨true, 0, 0, 1⟩] := by
  decide

/-- A flow whose first transaction is in progress but has no detect
state, while the second (completed) transaction holds a stored record. -/
def c7Flow : Flow :=
  { supportsTxs := true, supportsTxDetect := true, alstateNull := false,
    stateValid := true, dceProto := false,
    inspectId := fun _ => 0, completion := fun _ => 1,
    txs := [⟨true, fun _ => 0, none⟩, ⟨true, fun _ => 5, some c4TxDe⟩],
    deState := none, detectAlversion := fun _ => 0 }

/-- Claim C7 is wrong about the code and right about the stated intent
(the in-source comment at lines 922-923 says the loop will not advance
past an in-progress tx): transaction 0 is in progress (progress 0 <
completion 1), so by the claim no record of any later transaction may be
inspected; but because the `continue` for a missing tx detect state
(line 884) skips the in-progress break check (line 924), the driver goes
on and inspects transaction 1's stored record. -/
theorem c7_inprogress_break_skipped :
    (c7Flow.txs.getD 0 default).present = true ∧
    (c7Flow.txs.getD 0 default).progress (dirIndex ⟨true, false, false⟩)
      < c7Flow.completion (dirIndex ⟨true, false, false⟩) ∧
    (c7Flow.txs.getD 0 default).deState.isNone = true ∧
    (DeStateDetectContinueDetection c4Ctx c7Flow ⟨true, false, false⟩ 1).events
      = [⟨false, 1, 0, 1⟩] := by
  decide

/-- A flow of a protocol without transactions, whose flow detect state
holds one inspectable record followed by one that aborts (non-NULL
cursor with a NULL app-layer state). -/
def c9Flow : Flow :=
  { supportsTxs := false, supportsTxDetect := false, alstateNull := true,
    stateValid := false, dceProto := false,
    inspectId := fun _ => 0, completion := fun _ => 1,
    txs := [],
    deState := some (DetectEngineStateFlow.mk (fun _ =>
      ⟨[(⟨1, ∅, []⟩ : FlowRuleItem) :: (⟨2, ∅, [0]⟩ : FlowRuleItem)
          :: List.replicate 13 default], 2, 0, ⟨false, false, false⟩⟩)),
    detectAlversion := fun _ => 0 }

/-- Witness for C9 at a concrete input: the call aborts on the second
flow record (−1), and the theorem yields that the sole earlier event has
a non-negative return. -/
theorem c9_negative_inspector_aborts_witness :
    (0 : Int) ≤ (⟨true, 0, 0, 1⟩ : ContEvent).r :=
  (c9_negative_inspector_aborts c4Ctx c9Flow ⟨true, false, false⟩ 0).1
    ⟨true, 0, 0, 1⟩ (by decide)

/-! The full start driver (claims C2, C10). -/

/-- The AMATCH walk of the start driver (lines 562-588): call each
sigmatch's AppLayerMatch in order; a 0 result breaks, a 2 result sets
CANT_MATCH and breaks, anything else continues with `match` holding the
last callback result.  Returns the stop cursor, the final `match` value
and the inspect flags. -/
def amatchWalkStart (ctx : DetectCtx) (s : Signature) :
    List Nat → Nat → Flags → List Nat × Nat × Flags
  | [], m, ifl => ([], m, ifl)
  | sm :: rest, m, ifl =>
    if ctx.appHasCb sm then
      if ctx.appRes s.num sm = 0 then (sm :: rest, 0, ifl)
      else if ctx.appRes s.num sm = 2 then
        (sm :: rest, 2, insert DeFlag.sigCantMatch ifl)
      else amatchWalkStart ctx s rest (ctx.appRes s.num sm) ifl
    else amatchWalkStart ctx s rest m ifl

/-- StoreState (lines 347-362): allocate the flow detect state if needed,
append the flow rule record and store the state version.  On
allocation failure nothing is stored and the failure is not surfaced. -/
def StoreState (f : Flow) (sNum : Nat) (nm : List Nat) (ifl : Flags)
    (fl : StreamFlags) (alversion : Nat) (allocOk : Bool) : Flow :=
  match f.deState with
  | some d =>
      DeStateStoreStateVersion
        { f with deState := some (DeStateFlowRuleAppend d sNum nm ifl fl allocOk) }
        alversion fl
  | none =>
      if allocOk then
        DeStateStoreStateVersion
          { f with deState := some (DeStateFlowRuleAppend
              emptyDetectEngineStateFlow sNum nm ifl fl allocOk) }
          alversion fl
      else f

/-- The AMATCH (flow-based) section of the start driver (lines 553-605),
given the alert events, alert counter and leftover `inspect_flags` from
the earlier sections.  A signature without an AMATCH list skips it; a
NULL app state jumps to `end`. -/
def startAmatchSection (ctx : DetectCtx) (s : Signature) (f : Flow)
    (fl : StreamFlags) (alversion : Nat) (allocOk : Bool)
    (evs : List (Nat × Nat)) (ac : Bool) (ifl0 : Flags) :
    Flow × List (Nat × Nat) × Bool :=
  if s.amatch.isEmpty then (f, evs, ac)
  else if f.alstateNull then (f, evs, ac)
  else
    if (amatchWalkStart ctx s s.amatch 0 ifl0).1.isEmpty = true
        ∨ DeFlag.sigCantMatch ∈ (amatchWalkStart ctx s s.amatch 0 ifl0).2.2 then
      (StoreState f s.num (amatchWalkStart ctx s s.amatch 0 ifl0).1
         (insert DeFlag.fullInspect (amatchWalkStart ctx s s.amatch 0 ifl0).2.2)
         fl alversion allocOk,
       if (amatchWalkStart ctx s s.amatch 0 ifl0).2.1 = 1 ∧ s.noalert = false
       then evs ++ [(s.num, 0)] else evs,
       ac || decide ((amatchWalkStart ctx s s.amatch 0 ifl0).2.1 = 1))
    else
      (StoreState f s.num (amatchWalkStart ctx s s.amatch 0 ifl0).1
         (amatchWalkStart ctx s s.amatch 0 ifl0).2.2 fl alversion allocOk,
       evs, ac)

/-- The transaction loop of the start driver (lines 450-513): visit the
transactions from the inspect id in order, skipping NULL ones (which
also skips the per-tx `inspect_flags = 0` reset, as in the source), and
thread the flow, `file_no_match`, `inspect_flags`, the alert events and
the alert counter through startTxStep. -/
def startTxLoop (ctx : DetectCtx) (s : Signature) (fl : StreamFlags)
    (alversion : Nat) (allocOk : Bool) (totalTxs : Nat) :
    List Nat → Flow → Nat → Flags → List (Nat × Nat) → Bool →
      Flow × List (Nat × Nat) × Bool × Flags × Nat
  | [], f, fnm, ifl, evs, ac => (f, evs, ac, ifl, fnm)
  | i :: rest, f, fnm, ifl, evs, ac =>
    match f.txs.get? i with
    | none => startTxLoop ctx s fl alversion allocOk totalTxs rest f fnm ifl evs ac
    | some tx =>
      if tx.present = false then
        startTxLoop ctx s fl alversion allocOk totalTxs rest f fnm ifl evs ac
      else
        startTxLoop ctx s fl alversion allocOk totalTxs rest
          { (startTxStep ctx s f fl alversion allocOk i totalTxs tx fnm).flow with
              txs := (startTxStep ctx s f fl alversion allocOk i totalTxs tx
                  fnm).flow.txs.set i
                (startTxStep ctx s f fl alversion allocOk i totalTxs tx fnm).tx }
          (startTxStep ctx s f fl alversion allocOk i totalTxs tx fnm).fnm
          (startTxStep ctx s f fl alversion allocOk i totalTxs tx fnm).iflags
          (if (startTxStep ctx s f fl alversion allocOk i totalTxs tx fnm).alerted
              = true ∧ s.noalert = false
           then evs ++ [(s.num, i)] else evs)
          (ac || (startTxStep ctx s f fl alversion allocOk i totalTxs tx fnm).alerted)

/-- The result of a start-driver call: the updated flow, the alert
events (signature number, transaction id) and the `alert_cnt ? 1 : 0`
return value. -/
structure StartOut where
  flow : Flow
  alerts : List (Nat × Nat)
  ret : Bool

/-- DeStateDetectStartDetection (lines 424-613): the transactional
section for tx-supporting protocols (early `goto end` on an invalid app
state), the DCE payload section for DCERPC/SMB protocols with a DMATCH
list (early end on a NULL app state; no record is ever persisted there),
and then the AMATCH flow-based section. -/
def DeStateDetectStartDetection (ctx : DetectCtx) (s : Signature) (f : Flow)
    (fl : StreamFlags) (alversion : Nat) (allocOk : Bool) : StartOut :=
  if f.supportsTxs then
    if f.stateValid = false then ⟨f, [], false⟩
    else
      ⟨(startAmatchSection ctx s
          (startTxLoop ctx s fl alversion allocOk f.txs.length
            (List.range' (f.inspectId (dirIndex fl))
              (f.txs.length - f.inspectId (dirIndex fl))) f 0 ∅ [] false).1
          fl alversion allocOk
          (startTxLoop ctx s fl alversion allocOk f.txs.length
            (List.range' (f.inspectId (dirIndex fl))
              (f.txs.length - f.inspectId (dirIndex fl))) f 0 ∅ [] false).2.1
          (startTxLoop ctx s fl alversion allocOk f.txs.length
            (List.range' (f.inspectId (dirIndex fl))
              (f.txs.length - f.inspectId (dirIndex fl))) f 0 ∅ [] false).2.2.1
          (startTxLoop ctx s fl alversion allocOk f.txs.length
            (List.range' (f.inspectId (dirIndex fl))
              (f.txs.length - f.inspectId (dirIndex fl))) f 0 ∅ [] false).2.2.2.1).1,
       (startAmatchSection ctx s
          (startTxLoop ctx s fl alversion allocOk f.txs.length
            (List.range' (f.inspectId (dirIndex fl))
              (f.txs.length - f.inspectId (dirIndex fl))) f 0 ∅ [] false).1
          fl alversion allocOk
          (startTxLoop ctx s fl alversion allocOk f.txs.length
            (List.range' (f.inspectId (dirIndex fl))
              (f.txs.length - f.inspectId (dirIndex fl))) f 0 ∅ [] false).2.1
          (startTxLoop ctx s fl alversion allocOk f.txs.length
            (List.range' (f.inspectId (dirIndex fl))
              (f.txs.length - f.inspectId (dirIndex fl))) f 0 ∅ [] false).2.2.1
          (startTxLoop ctx s fl alversion allocOk f.txs.length
            (List.range' (f.inspectId (dirIndex fl))
              (f.txs.length - f.inspectId (dirIndex fl))) f 0 ∅ [] false).2.2.2.1).2.1,
       (startAmatchSection ctx s
          (startTxLoop ctx s fl alversion allocOk f.txs.length
            (List.range' (f.inspectId (dirIndex fl))
              (f.txs.length - f.inspectId (dirIndex fl))) f 0 ∅ [] false).1
          fl alversion allocOk
          (startTxLoop ctx s fl alversion allocOk f.txs.length
            (List.range' (f.inspectId (dirIndex fl))
              (f.txs.length - f.inspectId (dirIndex fl))) f 0 ∅ [] false).2.1
          (startTxLoop ctx s fl alversion allocOk f.txs.length
            (List.range' (f.inspectId (dirIndex fl))
              (f.txs.length - f.inspectId (dirIndex fl))) f 0 ∅ [] false).2.2.1
          (startTxLoop ctx s fl alversion allocOk f.txs.length
            (List.range' (f.inspectId (dirIndex fl))
              (f.txs.length - f.inspectId (dirIndex fl))) f 0 ∅ [] false).2.2.2.1).2.2⟩
  else if s.smListNonEmpty smListDMATCH = true ∧ f.dceProto = true then
    if f.alstateNull then ⟨f, [], false⟩
    else if ctx.dceRes s.num then
      ⟨(startAmatchSection ctx s f fl alversion allocOk
          (if s.noalert then [] else [(s.num, 0)]) true ∅).1,
       (startAmatchSection ctx s f fl alversion allocOk
          (if s.noalert then [] else [(s.num, 0)]) true ∅).2.1,
       (startAmatchSection ctx s f fl alversion allocOk
          (if s.noalert then [] else [(s.num, 0)]) true ∅).2.2⟩
    else
      ⟨(startAmatchSection ctx s f fl alversion allocOk [] false ∅).1,
       (startAmatchSection ctx s f fl alversion allocOk [] false ∅).2.1,
       (startAmatchSection ctx s f fl alversion allocOk [] false ∅).2.2⟩
  else
    ⟨(startAmatchSection ctx s f fl alversion allocOk [] false ∅).1,
     (startAmatchSection ctx s f fl alversion allocOk [] false ∅).2.1,
     (startAmatchSection ctx s f fl alversion allocOk [] false ∅).2.2⟩

/-! Groundwork for claim C2. -/

theorem runEnginesStartAux_flags_origin (s : Signature)
    (res : Engine → InspectResult) :
    ∀ (L : List Engine) (t : Nat) (ifl : Flags) (fn : Nat) (x : DeFlag),
      x ∈ (runEnginesStartAux s res L t ifl fn).inspectFlags →
      x ∈ ifl ∨ x = DeFlag.sigCantMatch ∨ ∃ e ∈ L, x = e.bit
  | [], t, ifl, fn, x => by
      intro hx
      exact Or.inl hx
  | e :: rest, t, ifl, fn, x => by
      intro hx
      by_cases hrel : s.smListNonEmpty e.smList = true
      · rw [runEnginesStartAux, if_pos hrel] at hx
        rcases hres : res e with _ | _ | _ | _ <;> rw [hres] at hx
        · rcases runEnginesStartAux_flags_origin s res rest (t + 1)
              (insert e.bit ifl) fn x hx with h | h | ⟨e', he', hb⟩
          · rcases Finset.mem_insert.mp h with h | h
            · exact Or.inr (Or.inr ⟨e, List.mem_cons_self _ _, h⟩)
            · exact Or.inl h
          · exact Or.inr (Or.inl h)
          · exact Or.inr (Or.inr ⟨e', List.mem_cons_of_mem _ he', hb⟩)
        · exact Or.inl hx
        · rcases Finset.mem_insert.mp hx with h | h
          · exact Or.inr (Or.inr ⟨e, List.mem_cons_self _ _, h⟩)
          · rcases Finset.mem_insert.mp h with h | h
            · exact Or.inr (Or.inl h)
            · exact Or.inl h
        · rcases Finset.mem_insert.mp hx with h | h
          · exact Or.inr (Or.inr ⟨e, List.mem_cons_self _ _, h⟩)
          · rcases Finset.mem_insert.mp h with h | h
            · exact Or.inr (Or.inl h)
            · exact Or.inl h
      · rw [runEnginesStartAux, if_neg hrel] at hx
        rcases runEnginesStartAux_flags_origin s res rest t ifl fn x hx with
          h | h | ⟨e', he', hb⟩
        · exact Or.inl h
        · exact Or.inr (Or.inl h)
        · exact Or.inr (Or.inr ⟨e', List.mem_cons_of_mem _ he', hb⟩)

theorem runEnginesStartAux_cant_origin (s : Signature)
    (res : Engine → InspectResult) :
    ∀ (L : List Engine) (t : Nat) (ifl : Flags) (fn : Nat),
      DeFlag.sigCantMatch ∈ (runEnginesStartAux s res L t ifl fn).inspectFlags →
      DeFlag.sigCantMatch ∈ ifl ∨
        (∃ e ∈ L, e.bit = DeFlag.sigCantMatch) ∨
        ∃ e ∈ L, s.smListNonEmpty e.smList = true ∧
          (res e = InspectResult.cantMatch ∨
            res e = InspectResult.cantMatchFilestore)
  | [], t, ifl, fn => fun hx => Or.inl hx
  | e :: rest, t, ifl, fn => by
      intro hx
      by_cases hrel : s.smListNonEmpty e.smList = true
      · rw [runEnginesStartAux, if_pos hrel] at hx
        rcases hres : res e with _ | _ | _ | _ <;> rw [hres] at hx
        · rcases runEnginesStartAux_cant_origin s res rest (t + 1)
              (insert e.bit ifl) fn hx with h | ⟨e', he', hb⟩ | ⟨e', he', h1, h2⟩
          · rcases Finset.mem_insert.mp h with h | h
            · exact Or.inr (Or.inl ⟨e, List.mem_cons_self _ _, h.symm⟩)
            · exact Or.inl h
          · exact Or.inr (Or.inl ⟨e', List.mem_cons_of_mem _ he', hb⟩)
          · exact Or.inr (Or.inr ⟨e', List.mem_cons_of_mem _ he', h1, h2⟩)
        · exact Or.inl hx
        · exact Or.inr (Or.inr ⟨e, List.mem_cons_self _ _, hrel, Or.inl hres⟩)
        · exact Or.inr (Or.inr ⟨e, List.mem_cons_self _ _, hrel, Or.inr hres⟩)
      · rw [runEnginesStartAux, if_neg hrel] at hx
        rcases runEnginesStartAux_cant_origin s res rest t ifl fn hx with
          h | ⟨e', he', hb⟩ | ⟨e', he', h1, h2⟩
        · exact Or.inl h
        · exact Or.inr (Or.inl ⟨e', List.mem_cons_of_mem _ he', hb⟩)
        · exact Or.inr (Or.inr ⟨e', List.mem_cons_of_mem _ he', h1, h2⟩)

/-- The direction state produced by appending one record into a freshly
allocated transaction detect state. -/
theorem append_empty_dir (n : Nat) (ifl : Flags) (fl : StreamFlags) :
    (DeStateSignatureAppend emptyDetectEngineState n ifl fl true).dirState
        (dirIndex fl)
      = ⟨[(⟨n, ifl⟩ : StoredItem) :: List.replicate 14 default], 1, 0,
         ⟨false, false, false⟩⟩ := by
  simp only [DeStateSignatureAppend, Function.update_same, emptyDetectEngineState,
    emptyDirState, dirStateAppend, List.isEmpty_nil, if_true, Nat.zero_mod,
    emptyChunk]
  rw [set_zero_replicate _ _ _ (by decide)]
  rfl

theorem StoreStateTxHandleFiles_dir (ctx : DetectCtx) (d : DetectEngineState)
    (fl : StreamFlags) (fnm : Nat) (i : Fin 2) :
    ((StoreStateTxHandleFiles ctx d fl fnm).dirState i).chunks
        = (d.dirState i).chunks ∧
    ((StoreStateTxHandleFiles ctx d fl fnm).dirState i).cnt = (d.dirState i).cnt ∧
    ((StoreStateTxHandleFiles ctx d fl fnm).dirState i).dflags.fileTsNew
        = (d.dirState i).dflags.fileTsNew ∧
    ((StoreStateTxHandleFiles ctx d fl fnm).dirState i).dflags.fileTcNew
        = (d.dirState i).dflags.fileTcNew := by
  simp only [StoreStateTxHandleFiles, DeStateStoreFileNoMatchCnt]
  split_ifs with h <;>
    by_cases hi : i = dirIndex fl <;>
    simp [Function.update_apply, hi]

/-- When `cnt - sc = 0` the chunk walk visits no slot of any chunk. -/
theorem contStoreLoop_drained {α : Type} (proc : α → Int × α × Option (Nat × Nat))
    (mkEv : Nat → Int → ContEvent) (cnt : Nat) :
    ∀ (chunks : List (List α)) (sc : Nat), cnt - sc = 0 →
      (contStoreLoop proc mkEv cnt chunks sc).2.1 = [] ∧
      (contStoreLoop proc mkEv cnt chunks sc).2.2.1 = [] ∧
      (contStoreLoop proc mkEv cnt chunks sc).2.2.2.2 = true
  | [], sc, _ => ⟨rfl, rfl, rfl⟩
  | c :: rest, sc, h => by
      have hk : min DE_STATE_CHUNK_SIZE (cnt - sc) = 0 := by
        rw [h]
        exact Nat.min_zero _
      have ih := contStoreLoop_drained proc mkEv cnt rest (sc + 0) (by omega)
      unfold contStoreLoop
      rw [hk]
      simp only [List.take_zero, contChunkItems, if_pos rfl]
      rw [Nat.add_zero] at ih
      refine ⟨?_, ?_, ?_⟩
      · simpa using ih.1
      · simpa using ih.2.1
      · simpa using ih.2.2

/-- A tx-supporting, tx-detect-supporting flow with a single live
transaction and no flow-scoped state: the minimal setting in which the
start driver can persist a record the continue driver later resumes. -/
def oneTxFlow (p compl dav : Fin 2 → Nat) : Flow :=
  { supportsTxs := true, supportsTxDetect := true, alstateNull := false,
    stateValid := true, dceProto := false,
    inspectId := fun _ => 0, completion := compl,
    txs := [⟨true, p, none⟩], deState := none,
    detectAlversion := dav }

/-- The app layer advancing all transactions to progress `p` between two
driver calls (more of the stream was consumed). -/
def withProgress (f : Flow) (p : Fin 2 → Nat) : Flow :=
  { f with txs := f.txs.map (fun tx => { tx with progress := p }) }

def c2Sig : Signature := ⟨7, fun l => decide (l < 2), [], false⟩

def c2Engines : List Engine :=
  [⟨0, DeFlag.engineBit 0⟩, ⟨1, DeFlag.engineBit 1⟩]

/-- Engine oracle for the prefix of the input: the first engine's buffer
already matches, the second's does not match yet. -/
def c2CtxPre : DetectCtx :=
  { sigArray := fun _ => c2Sig,
    engines := fun _ => c2Engines,
    engRes := fun _ _ e =>
      if e.smList = 0 then InspectResult.sigMatch else InspectResult.noMatch,
    appHasCb := fun _ => false,
    appRes := fun _ _ => 0,
    dceRes := fun _ => false,
    sghFilestoreCnt := 5 }

/-- Engine oracle for the full input: both engines match. -/
def c2CtxFull : DetectCtx :=
  { sigArray := fun _ => c2Sig,
    engines := fun _ => c2Engines,
    engRes := fun _ _ _ => InspectResult.sigMatch,
    appHasCb := fun _ => false,
    appRes := fun _ _ => 0,
    dceRes := fun _ => false,
    sghFilestoreCnt := 5 }

theorem c2_counterexample :
    (DeStateDetectStartDetection c2CtxFull c2Sig
        (oneTxFlow (fun _ => 1) (fun _ => 2) (fun _ => 0))
        ⟨true, false, false⟩ 2 true).alerts = [(7, 0)] ∧
    (DeStateDetectStartDetection c2CtxPre c2Sig
        (oneTxFlow (fun _ => 0) (fun _ => 2) (fun _ => 0))
        ⟨true, false, false⟩ 1 true).alerts = [] ∧
    (DeStateDetectContinueDetection c2CtxFull
        (withProgress
          (DeStateDetectStartDetection c2CtxPre c2Sig
            (oneTxFlow (fun _ => 0) (fun _ => 2) (fun _ => 0))
            ⟨true, false, false⟩ 1 true).flow
          (fun _ => 1))
        ⟨true, false, false⟩ 2).alerts = [] := by decide

theorem startTxStep_alerted (ctx : DetectCtx) (s : Signature) (f : Flow)
    (fl : StreamFlags) (v : Nat) (ok : Bool) (i total : Nat) (tx : TxInfo)
    (fnm : Nat) :
    (startTxStep ctx s f fl v ok i total tx fnm).alerted
      = startTxAlerted ctx s fl i := by
  unfold startTxStep
  split_ifs <;> rfl

theorem startTxStep_flow_cases (ctx : DetectCtx) (s : Signature) (f : Flow)
    (fl : StreamFlags) (v : Nat) (ok : Bool) (i total : Nat) (tx : TxInfo)
    (fnm : Nat) :
    (startTxStep ctx s f fl v ok i total tx fnm).flow
        = DeStateStoreStateVersion f v fl ∨
      (startTxStep ctx s f fl v ok i total tx fnm).flow = f := by
  unfold startTxStep
  split_ifs
  · unfold StoreStateTx
    by_cases hs : f.supportsTxDetect = true
    · rw [if_pos hs]
      cases htx : tx.deState with
      | none =>
          cases ok with
          | false => exact Or.inr rfl
          | true => exact Or.inl rfl
      | some d => exact Or.inl rfl
    · rw [if_neg hs]
      exact Or.inr rfl
  · exact Or.inr rfl
  · exact Or.inr rfl

theorem startTxStep_flow_txs (ctx : DetectCtx) (s : Signature) (f : Flow)
    (fl : StreamFlags) (v : Nat) (ok : Bool) (i total : Nat) (tx : TxInfo)
    (fnm : Nat) :
    (startTxStep ctx s f fl v ok i total tx fnm).flow.txs = f.txs := by
  rcases startTxStep_flow_cases ctx s f fl v ok i total tx fnm with h | h <;>
    simp [h, DeStateStoreStateVersion]

theorem StoreStateTx_fst_present (ctx : DetectCtx) (f : Flow)
    (fl : StreamFlags) (v : Nat) (tx : TxInfo) (s : Signature) (ifl : Flags)
    (fnm : Nat) (ok : Bool) :
    (StoreStateTx ctx f fl v tx s ifl fnm ok).1.present = tx.present := by
  unfold StoreStateTx
  by_cases hs : f.supportsTxDetect = true
  · rw [if_pos hs]
    cases htx : tx.deState with
    | none => cases ok <;> rfl
    | some d => rfl
  · rw [if_neg hs]

theorem StoreStateTxFileOnly_present (ctx : DetectCtx) (f : Flow)
    (fl : StreamFlags) (tx : TxInfo) (fnm : Nat) (ok : Bool) :
    (StoreStateTxFileOnly ctx f fl tx fnm ok).present = tx.present := by
  unfold StoreStateTxFileOnly
  by_cases hs : f.supportsTxDetect = true
  · rw [if_pos hs]
    cases htx : tx.deState with
    | none => cases ok <;> rfl
    | some d => rfl
  · rw [if_neg hs]

theorem startTxStep_tx_present (ctx : DetectCtx) (s : Signature) (f : Flow)
    (fl : StreamFlags) (v : Nat) (ok : Bool) (i total : Nat) (tx : TxInfo)
    (fnm : Nat) :
    (startTxStep ctx s f fl v ok i total tx fnm).tx.present = tx.present := by
  unfold startTxStep
  split_ifs
  · exact StoreStateTx_fst_present ..
  · exact StoreStateTxFileOnly_present ..
  · rfl

/-- The transaction-loop step a start call on `oneTxFlow` performs. -/
def startOneTxStep (ctx : DetectCtx) (s : Signature) (p compl dav : Fin 2 → Nat)
    (fl : StreamFlags) (v : Nat) : TxStepOut :=
  startTxStep ctx s (oneTxFlow p compl dav) fl v true 0 1 ⟨true, p, none⟩ 0

/-- A start call on a single-transaction flow for an AMATCH-free
signature: the alerts and the flow are those of the one transaction-loop
step. -/
theorem startDetection_oneTx (ctx : DetectCtx) (s : Signature)
    (p compl dav : Fin 2 → Nat) (fl : StreamFlags) (v : Nat)
    (hna : s.amatch = []) :
    (DeStateDetectStartDetection ctx s (oneTxFlow p compl dav) fl v true).alerts
      = (if startTxAlerted ctx s fl 0 = true ∧ s.noalert = false
         then [(s.num, 0)] else []) ∧
    (DeStateDetectStartDetection ctx s (oneTxFlow p compl dav) fl v true).flow
      = { (startOneTxStep ctx s p compl dav fl v).flow with
          txs := [(startOneTxStep ctx s p compl dav fl v).tx] } := by
  have hAm : ∀ (f' : Flow) (evs : List (Nat × Nat)) (ac : Bool) (ifl0 : Flags),
      startAmatchSection ctx s f' fl v true evs ac ifl0 = (f', evs, ac) := by
    intro f' evs ac ifl0
    rw [startAmatchSection, hna]
    rfl
  have hdrv : DeStateDetectStartDetection ctx s (oneTxFlow p compl dav) fl v true
      = ⟨(startAmatchSection ctx s
            { (startOneTxStep ctx s p compl dav fl v).flow with
                txs := (startOneTxStep ctx s p compl dav fl v).flow.txs.set 0
                  (startOneTxStep ctx s p compl dav fl v).tx }
            fl v true
            (if (startOneTxStep ctx s p compl dav fl v).alerted = true
                ∧ s.noalert = false then [(s.num, 0)] else [])
            (false || (startOneTxStep ctx s p compl dav fl v).alerted)
            (startOneTxStep ctx s p compl dav fl v).iflags).1,
         (startAmatchSection ctx s
            { (startOneTxStep ctx s p compl dav fl v).flow with
                txs := (startOneTxStep ctx s p compl dav fl v).flow.txs.set 0
                  (startOneTxStep ctx s p compl dav fl v).tx }
            fl v true
            (if (startOneTxStep ctx s p compl dav fl v).alerted = true
                ∧ s.noalert = false then [(s.num, 0)] else [])
            (false || (startOneTxStep ctx s p compl dav fl v).alerted)
            (startOneTxStep ctx s p compl dav fl v).iflags).2.1,
         (startAmatchSection ctx s
            { (startOneTxStep ctx s p compl dav fl v).flow with
                txs := (startOneTxStep ctx s p compl dav fl v).flow.txs.set 0
                  (startOneTxStep ctx s p compl dav fl v).tx }
            fl v true
            (if (startOneTxStep ctx s p compl dav fl v).alerted = true
                ∧ s.noalert = false then [(s.num, 0)] else [])
            (false || (startOneTxStep ctx s p compl dav fl v).alerted)
            (startOneTxStep ctx s p compl dav fl v).iflags).2.2⟩ := rfl
  rw [hdrv, hAm]
  constructor
  · dsimp only
    rw [startOneTxStep, startTxStep_alerted]
  · dsimp only
    rw [startOneTxStep, startTxStep_flow_txs]
    rfl

/-- A continue call on a single-transaction flow without flow-scoped
state alerts nothing when the transaction has no detect state, no record
in the packet's direction, or exactly one record carrying FULL_INSPECT
and no file-inspect bits (with no FILE_*_NEW raised): every record is
skipped by DoInspectItem's FULL_INSPECT early return. -/
theorem continueDetection_skip_all (ctx : DetectCtx) (fc : Flow)
    (fl : StreamFlags) (v : Nat) (tx : TxInfo)
    (hsx : fc.supportsTxs = true) (hsv : fc.stateValid = true)
    (hfd : fc.deState = none) (hins : fc.inspectId (dirIndex fl) = 0)
    (htxs : fc.txs = [tx]) (hpres : tx.present = true)
    (hde : tx.deState = none ∨
      ∃ d, tx.deState = some d ∧
        ((d.dirState (dirIndex fl)).cnt = 0 ∨
          ((d.dirState (dirIndex fl)).cnt = 1 ∧
            ∃ it c rest, (d.dirState (dirIndex fl)).chunks = (it :: c) :: rest ∧
              DeFlag.fullInspect ∈ it.flags ∧
              DeFlag.fileTsInspect ∉ it.flags ∧
              DeFlag.fileTcInspect ∉ it.flags))) :
    (DeStateDetectContinueDetection ctx fc fl v).alerts = [] := by
  suffices h : (contTxPhase ctx fc fl).2.2.1 = []
      ∧ (contTxPhase ctx fc fl).2.2.2.2 = true by
    rw [DeStateDetectContinueDetection, if_neg (by simp [hsv]),
      if_neg (by rw [h.2]; simp), hfd]
    exact h.1
  have hphase : contTxPhase ctx fc fl
      = contTxLoop ctx fl fc.stateValid (fc.completion (dirIndex fl)) [0] [tx] 0 := by
    rw [contTxPhase, if_pos hsx, htxs, hins]
    rfl
  rw [hphase]
  rcases hde with hnone | ⟨d, hsome, hd⟩
  · have hloop : contTxLoop ctx fl fc.stateValid (fc.completion (dirIndex fl))
        [0] [tx] 0 = ([tx], [], [], 0, true) := by
      rw [contTxLoop, show ([tx] : List TxInfo).get? 0 = some tx from rfl]
      dsimp only
      rw [hpres, if_neg (by decide), hnone]
      dsimp only
      rfl
    rw [hloop]
    exact ⟨rfl, rfl⟩
  · have hrun : (contTxRun ctx fl fc.stateValid 0 tx d).2.2.1 = []
        ∧ (contTxRun ctx fl fc.stateValid 0 tx d).2.2.2.2 = true := by
      rcases hd with hcnt | ⟨hcnt, it, c, rest0, hsplit, hfull, htsI, htcI⟩
      · have hdr := contStoreLoop_drained
          (contTxItemProc ctx fl fc.stateValid tx.present 0
            (d.dirState (dirIndex fl)).dflags)
          (fun sc' r => (⟨false, 0, sc', r⟩ : ContEvent))
          (d.dirState (dirIndex fl)).cnt (d.dirState (dirIndex fl)).chunks 0
          (by omega)
        exact ⟨hdr.2.1, hdr.2.2⟩
      · have hcarve : fullCarveFlags it.flags (d.dirState (dirIndex fl)).dflags fl
            = it.flags := by
          rw [fullCarveFlags, if_neg]
          rintro ⟨-, hbit | hbit⟩
          · exact htcI hbit
          · exact htsI hbit
        have hitem : DoInspectItem ctx (d.dirState (dirIndex fl)).dflags fl
            fc.stateValid tx.present 0 it = ⟨0, ⟨it.sid, it.flags⟩, false⟩ := by
          rw [DoInspectItem, hcarve, if_pos hfull]
        have hproc : contTxItemProc ctx fl fc.stateValid tx.present 0
            (d.dirState (dirIndex fl)).dflags it = (0, ⟨it.sid, it.flags⟩, none) := by
          simp [contTxItemProc, hitem]
        have hchunk : ∀ (mkEv : Nat → Int → ContEvent),
            contChunkItems (contTxItemProc ctx fl fc.stateValid tx.present 0
              (d.dirState (dirIndex fl)).dflags) mkEv [it] 0
              = ([⟨it.sid, it.flags⟩], [mkEv 0 0], [], true) := by
          intro mkEv
          rw [contChunkItems, hproc]
          dsimp only
          rw [if_neg (by decide)]
          rfl
        rw [contTxRun, hsplit, hcnt]
        have hk : min DE_STATE_CHUNK_SIZE (1 - 0) = 1 := by decide
        rw [contStoreLoop, hk, show (it :: c).take 1 = [it] from rfl,
          hchunk (fun sc' r => (⟨false, 0, sc', r⟩ : ContEvent))]
        dsimp only
        rw [if_pos rfl]
        have hdr2 := contStoreLoop_drained
          (contTxItemProc ctx fl fc.stateValid tx.present 0
            (d.dirState (dirIndex fl)).dflags)
          (fun sc' r => (⟨false, 0, sc', r⟩ : ContEvent)) 1 rest0 (0 + 1)
          (by omega)
        exact ⟨by simpa using hdr2.2.1, by simpa using hdr2.2.2⟩
    rw [contTxLoop, show ([tx] : List TxInfo).get? 0 = some tx from rfl]
    dsimp only
    rw [hpres, if_neg (by decide), hsome]
    dsimp only
    rw [hrun.2, if_neg (by decide)]
    by_cases hp : tx.progress (dirIndex fl) < fc.completion (dirIndex fl)
    · rw [if_pos hp]
      exact ⟨hrun.1, rfl⟩
    · rw [if_neg hp]
      refine ⟨?_, ?_⟩ <;> simp [contTxLoop, hrun.1]

theorem startTxStep_flow_fields (ctx : DetectCtx) (s : Signature) (f : Flow)
    (fl : StreamFlags) (v : Nat) (ok : Bool) (i total : Nat) (tx : TxInfo)
    (fnm : Nat) :
    (startTxStep ctx s f fl v ok i total tx fnm).flow.supportsTxs
        = f.supportsTxs ∧
    (startTxStep ctx s f fl v ok i total tx fnm).flow.stateValid
        = f.stateValid ∧
    (startTxStep ctx s f fl v ok i total tx fnm).flow.deState = f.deState ∧
    (startTxStep ctx s f fl v ok i total tx fnm).flow.inspectId
        = f.inspectId := by
  rcases startTxStep_flow_cases ctx s f fl v ok i total tx fnm with h | h <;>
    rw [h] <;> exact ⟨rfl, rfl, rfl, rfl⟩

/-- The start driver's per-transaction alert outcome is unchanged by
feeding the engines more of the stream, provided a decision had been
reached on the prefix: a full match stays a full match (engine matches
are monotone) and a CANT_MATCH verdict is permanent. -/
theorem startTxAlerted_stable (ctx1 ctx2 : DetectCtx) (s : Signature)
    (fl : StreamFlags) (i : Nat)
    (heng : ctx1.engines (dirIndex fl) = ctx2.engines (dirIndex fl))
    (hbits : ∀ e ∈ ctx2.engines (dirIndex fl), ∃ n, e.bit = DeFlag.engineBit n)
    (hmono : ∀ e ∈ ctx2.engines (dirIndex fl),
      (ctx1.engRes s.num i e = InspectResult.sigMatch →
        ctx2.engRes s.num i e = InspectResult.sigMatch) ∧
      (ctx1.engRes s.num i e = InspectResult.cantMatch →
        ctx2.engRes s.num i e = InspectResult.cantMatch) ∧
      (ctx1.engRes s.num i e = InspectResult.cantMatchFilestore →
        ctx2.engRes s.num i e = InspectResult.cantMatchFilestore))
    (hdec : startTxAlerted ctx1 s fl i = true ∨
      DeFlag.sigCantMatch ∈ (startTxEngineRun ctx1 s fl i).inspectFlags) :
    startTxAlerted ctx2 s fl i = startTxAlerted ctx1 s fl i := by
  cases ha1 : startTxAlerted ctx1 s fl i with
  | true =>
      rw [startTxAlerted, startTxEngineRun, Bool.and_eq_true_iff] at ha1
      have h1 : allRelevantEnginesMatched s (ctx1.engRes s.num i)
          (ctx1.engines (dirIndex fl)) :=
        (runEnginesStart_match_iff s _ _).mp ⟨ha1.1, of_decide_eq_true ha1.2⟩
      rw [heng] at h1
      have h2 : allRelevantEnginesMatched s (ctx2.engRes s.num i)
          (ctx2.engines (dirIndex fl)) := by
        obtain ⟨⟨e, he, hrel⟩, hall⟩ := h1
        exact ⟨⟨e, he, hrel⟩, fun e' he' hrel' =>
          (hmono e' he').1 (hall e' he' hrel')⟩
      have h3 := (runEnginesStart_match_iff s (ctx2.engRes s.num i)
        (ctx2.engines (dirIndex fl))).mpr h2
      rw [startTxAlerted, startTxEngineRun, Bool.and_eq_true_iff]
      exact ⟨h3.1, decide_eq_true h3.2⟩
  | false =>
      rcases hdec with h | hcant
      · rw [ha1] at h
        exact absurd h (by decide)
      · rw [startTxEngineRun, runEnginesStart] at hcant
        rcases runEnginesStartAux_cant_origin s (ctx1.engRes s.num i)
            (ctx1.engines (dirIndex fl)) 0 ∅ 0 hcant with
          h0 | ⟨e, he, hbit⟩ | ⟨e, he, hrel, hres⟩
        · exact absurd h0 (Finset.not_mem_empty _)
        · rw [heng] at he
          obtain ⟨n, hn⟩ := hbits e he
          rw [hn] at hbit
          exact DeFlag.noConfusion hbit
        · rw [heng] at he
          have hres2 : ctx2.engRes s.num i e = InspectResult.cantMatch ∨
              ctx2.engRes s.num i e = InspectResult.cantMatchFilestore := by
            rcases hres with h | h
            · exact Or.inl ((hmono e he).2.1 h)
            · exact Or.inr ((hmono e he).2.2 h)
          have hexh : (runEnginesStartAux s (ctx2.engRes s.num i)
              (ctx2.engines (dirIndex fl)) 0 ∅ 0).exhausted = false := by
            cases hx : (runEnginesStartAux s (ctx2.engRes s.num i)
                (ctx2.engines (dirIndex fl)) 0 ∅ 0).exhausted with
            | false => rfl
            | true =>
                have hall := (runEnginesStartAux_exhausted s
                  (ctx2.engRes s.num i) (ctx2.engines (dirIndex fl)) 0 ∅ 0).mp hx
                have := hall e he hrel
                rcases hres2 with h | h <;> rw [this] at h <;>
                  exact InspectResult.noConfusion h
          rw [startTxAlerted, startTxEngineRun, runEnginesStart, hexh]
          rfl

/-- Claim C2 (amended): split-versus-full equivalence of alerts does NOT
hold unconditionally (c2_counterexample: a prefix on which the engines
reach no decision persists nothing, so the continue driver has nothing to
resume and the full-input alert is lost).  It does hold when the start
call on the prefix reaches a decision for the transaction: for a
single-transaction flow, an AMATCH-free signature, monotone engine
verdicts (a MATCH stays a MATCH on more input, a CANT_MATCH verdict is
permanent), engine bits drawn from the per-engine inspect bits, and the
transaction not yet complete at the prefix, the alerts of start on the
full input equal the alerts of start on the prefix followed by continue
on the remainder — the record persisted by the prefix carries
FULL_INSPECT, so the continue driver re-inspects nothing and the alert
(if any) was already raised by the prefix call. -/
theorem c2_split_vs_full_amended (ctx1 ctx2 : DetectCtx) (s : Signature)
    (fl : StreamFlags) (v1 v2 : Nat) (p1 p2 compl dav : Fin 2 → Nat)
    (hna : s.amatch = [])
    (heng : ctx1.engines (dirIndex fl) = ctx2.engines (dirIndex fl))
    (hbits : ∀ e ∈ ctx2.engines (dirIndex fl), ∃ n, e.bit = DeFlag.engineBit n)
    (hmono : ∀ e ∈ ctx2.engines (dirIndex fl),
      (ctx1.engRes s.num 0 e = InspectResult.sigMatch →
        ctx2.engRes s.num 0 e = InspectResult.sigMatch) ∧
      (ctx1.engRes s.num 0 e = InspectResult.cantMatch →
        ctx2.engRes s.num 0 e = InspectResult.cantMatch) ∧
      (ctx1.engRes s.num 0 e = InspectResult.cantMatchFilestore →
        ctx2.engRes s.num 0 e = InspectResult.cantMatchFilestore))
    (hdec : startTxAlerted ctx1 s fl 0 = true ∨
      DeFlag.sigCantMatch ∈ (startTxEngineRun ctx1 s fl 0).inspectFlags)
    (hprog : p1 (dirIndex fl) < compl (dirIndex fl)) :
    (DeStateDetectStartDetection ctx2 s (oneTxFlow p2 compl dav) fl v2
        true).alerts
      = (DeStateDetectStartDetection ctx1 s (oneTxFlow p1 compl dav) fl v1
          true).alerts
        ++ (DeStateDetectContinueDetection ctx2
            (withProgress
              (DeStateDetectStartDetection ctx1 s (oneTxFlow p1 compl dav)
                fl v1 true).flow p2) fl v2).alerts := by
  obtain ⟨ha1, hf1⟩ := startDetection_oneTx ctx1 s p1 compl dav fl v1 hna
  obtain ⟨ha2, -⟩ := startDetection_oneTx ctx2 s p2 compl dav fl v2 hna
  have hbr := startTxAlerted_stable ctx1 ctx2 s fl 0 heng hbits hmono hdec
  have hcond : (startTxEngineRun ctx1 s fl 0).exhausted = true ∨
      DeFlag.sigCantMatch ∈ (startTxEngineRun ctx1 s fl 0).inspectFlags := by
    rcases hdec with h | h
    · rw [startTxAlerted, Bool.and_eq_true_iff] at h
      exact Or.inl h.1
    · exact Or.inr h
  have hfull : DeFlag.fullInspect ∈ startTxStoredFlags ctx1 s fl 0 := by
    rw [startTxStoredFlags, if_pos hcond]
    exact Finset.mem_insert_self _ _
  have hnofile : ∀ x ∈ startTxStoredFlags ctx1 s fl 0,
      x = DeFlag.fullInspect ∨ x = DeFlag.sigCantMatch ∨
        ∃ n, x = DeFlag.engineBit n := by
    intro x hx
    rw [startTxStoredFlags, if_pos hcond] at hx
    rcases Finset.mem_insert.mp hx with rfl | hx
    · exact Or.inl rfl
    · rw [startTxEngineRun, runEnginesStart] at hx
      rcases runEnginesStartAux_flags_origin s (ctx1.engRes s.num 0)
          (ctx1.engines (dirIndex fl)) 0 ∅ 0 x hx with h | h | ⟨e, he, hb⟩
      · exact absurd h (Finset.not_mem_empty _)
      · exact Or.inr (Or.inl h)
      · rw [heng] at he
        obtain ⟨n, hn⟩ := hbits e he
        exact Or.inr (Or.inr ⟨n, hb.trans hn⟩)
  have hts : DeFlag.fileTsInspect ∉ startTxStoredFlags ctx1 s fl 0 := by
    intro hmem
    rcases hnofile _ hmem with h | h | ⟨n, h⟩ <;> exact DeFlag.noConfusion h
  have htc : DeFlag.fileTcInspect ∉ startTxStoredFlags ctx1 s fl 0 := by
    intro hmem
    rcases hnofile _ hmem with h | h | ⟨n, h⟩ <;> exact DeFlag.noConfusion h
  have hc2 : TxIsLast 0 1 = false ∨
      ¬((oneTxFlow p1 compl dav).completion (dirIndex fl)
        ≤ (⟨true, p1, none⟩ : TxInfo).progress (dirIndex fl)) := by
    refine Or.inr ?_
    show ¬(compl (dirIndex fl) ≤ p1 (dirIndex fl))
    omega
  have hds : (startOneTxStep ctx1 s p1 compl dav fl v1).tx.deState
      = some (StoreStateTxHandleFiles ctx1
          (DeStateSignatureAppend emptyDetectEngineState s.num
            (startTxStoredFlags ctx1 s fl 0) fl true) fl
          (0 + (startTxEngineRun ctx1 s fl 0).fileNoMatch)) := by
    rw [startOneTxStep, startTxStep, if_pos hdec, if_pos hc2]
    exact (StoreStateTx_stored ctx1 (oneTxFlow p1 compl dav) fl v1
      ⟨true, p1, none⟩ s (startTxStoredFlags ctx1 s fl 0)
      (0 + (startTxEngineRun ctx1 s fl 0).fileNoMatch) rfl).2
  have hHF := StoreStateTxHandleFiles_dir ctx1
    (DeStateSignatureAppend emptyDetectEngineState s.num
      (startTxStoredFlags ctx1 s fl 0) fl true) fl
    (0 + (startTxEngineRun ctx1 s fl 0).fileNoMatch) (dirIndex fl)
  have happ := append_empty_dir s.num (startTxStoredFlags ctx1 s fl 0) fl
  have hcont : (DeStateDetectContinueDetection ctx2
      (withProgress
        (DeStateDetectStartDetection ctx1 s (oneTxFlow p1 compl dav)
          fl v1 true).flow p2) fl v2).alerts = [] := by
    rw [hf1]
    refine continueDetection_skip_all ctx2 _ fl v2
      { (startOneTxStep ctx1 s p1 compl dav fl v1).tx with progress := p2 }
      ?_ ?_ ?_ ?_ rfl ?_ ?_
    · exact (startTxStep_flow_fields ctx1 s (oneTxFlow p1 compl dav) fl v1
        true 0 1 ⟨true, p1, none⟩ 0).1
    · exact (startTxStep_flow_fields ctx1 s (oneTxFlow p1 compl dav) fl v1
        true 0 1 ⟨true, p1, none⟩ 0).2.1
    · exact (startTxStep_flow_fields ctx1 s (oneTxFlow p1 compl dav) fl v1
        true 0 1 ⟨true, p1, none⟩ 0).2.2.1
    · exact congrFun (startTxStep_flow_fields ctx1 s (oneTxFlow p1 compl dav)
        fl v1 true 0 1 ⟨true, p1, none⟩ 0).2.2.2 (dirIndex fl)
    · exact startTxStep_tx_present ctx1 s (oneTxFlow p1 compl dav) fl v1
        true 0 1 ⟨true, p1, none⟩ 0
    · refine Or.inr ⟨_, hds, Or.inr ⟨?_, ⟨s.num, startTxStoredFlags ctx1 s fl 0⟩,
        List.replicate 14 default, [], ?_, hfull, hts, htc⟩⟩
      · rw [hHF.2.1, happ]
      · rw [hHF.1, happ]
  rw [ha2, ha1, hcont, List.append_nil, hbr]

theorem c2_split_vs_full_amended_witness :
    (startTxAlerted c2CtxFull c2Sig ⟨true, false, false⟩ 0 = true) ∧
    (DeStateDetectStartDetection c2CtxFull c2Sig
        (oneTxFlow (fun _ => 1) (fun _ => 2) (fun _ => 0))
        ⟨true, false, false⟩ 2 true).alerts
      = (DeStateDetectStartDetection c2CtxFull c2Sig
          (oneTxFlow (fun _ => 0) (fun _ => 2) (fun _ => 0))
          ⟨true, false, false⟩ 1 true).alerts
        ++ (DeStateDetectContinueDetection c2CtxFull
            (withProgress
              (DeStateDetectStartDetection c2CtxFull c2Sig
                (oneTxFlow (fun _ => 0) (fun _ => 2) (fun _ => 0))
                ⟨true, false, false⟩ 1 true).flow (fun _ => 1))
            ⟨true, false, false⟩ 2).alerts :=
  ⟨by decide,
   c2_split_vs_full_amended c2CtxFull c2CtxFull c2Sig ⟨true, false, false⟩ 1 2
     (fun _ => 0) (fun _ => 1) (fun _ => 2) (fun _ => 0) rfl rfl
     (fun e he => by
       rcases List.mem_cons.mp he with rfl | he1
       · exact ⟨0, rfl⟩
       · rcases List.mem_cons.mp he1 with rfl | h
         · exact ⟨1, rfl⟩
         · exact absurd h (List.not_mem_nil e))
     (fun e he => ⟨fun h => h, fun h => h, fun h => h⟩)
     (Or.inl (by decide)) (by decide)⟩

/-! Direction-slot selection (claim C10): every operation picks the
per-direction slot through `dirIndex`, i.e. by testing only the
STREAM_TOSERVER bit. -/

theorem DeStateSignatureAppend_dirCongr {fl1 fl2 : StreamFlags}
    (h : dirIndex fl1 = dirIndex fl2) (st : DetectEngineState) (n : Nat)
    (ifl : Flags) (ok : Bool) :
    DeStateSignatureAppend st n ifl fl1 ok
      = DeStateSignatureAppend st n ifl fl2 ok := by
  simp only [DeStateSignatureAppend, h]

theorem DeStateFlowRuleAppend_dirCongr {fl1 fl2 : StreamFlags}
    (h : dirIndex fl1 = dirIndex fl2) (st : DetectEngineStateFlow) (n : Nat)
    (nm : List Nat) (ifl : Flags) (ok : Bool) :
    DeStateFlowRuleAppend st n nm ifl fl1 ok
      = DeStateFlowRuleAppend st n nm ifl fl2 ok := by
  simp only [DeStateFlowRuleAppend, h]

theorem DeStateStoreStateVersion_dirCongr {fl1 fl2 : StreamFlags}
    (h : dirIndex fl1 = dirIndex fl2) (f : Flow) (v : Nat) :
    DeStateStoreStateVersion f v fl1 = DeStateStoreStateVersion f v fl2 := by
  simp only [DeStateStoreStateVersion, h]

theorem DeStateStoreFileNoMatchCnt_dirCongr {fl1 fl2 : StreamFlags}
    (h : dirIndex fl1 = dirIndex fl2) (d : DetectEngineState) (n : Nat) :
    DeStateStoreFileNoMatchCnt d n fl1 = DeStateStoreFileNoMatchCnt d n fl2 := by
  simp only [DeStateStoreFileNoMatchCnt, h]

theorem DeStateStoreFilestoreSigsCantMatch_dirCongr {fl1 fl2 : StreamFlags}
    (h : dirIndex fl1 = dirIndex fl2) (c : Nat) (d : DetectEngineState) :
    DeStateStoreFilestoreSigsCantMatch c d fl1
      = DeStateStoreFilestoreSigsCantMatch c d fl2 := by
  simp only [DeStateStoreFilestoreSigsCantMatch, h]

theorem HasStoredSigs_dirCongr {fl1 fl2 : StreamFlags}
    (h : dirIndex fl1 = dirIndex fl2) (f : Flow) :
    HasStoredSigs f fl1 = HasStoredSigs f fl2 := by
  simp only [HasStoredSigs, h]

theorem DeStateFlowHasInspectableState_dirCongr {fl1 fl2 : StreamFlags}
    (h : dirIndex fl1 = dirIndex fl2) (heof : fl1.eof = fl2.eof) (f : Flow)
    (v : Nat) :
    DeStateFlowHasInspectableState f v fl1
      = DeStateFlowHasInspectableState f v fl2 := by
  simp only [DeStateFlowHasInspectableState, h, heof, HasStoredSigs_dirCongr h]

theorem StoreStateTxHandleFiles_dirCongr {fl1 fl2 : StreamFlags}
    (h : dirIndex fl1 = dirIndex fl2) (ctx : DetectCtx) (d : DetectEngineState)
    (fnm : Nat) :
    StoreStateTxHandleFiles ctx d fl1 fnm = StoreStateTxHandleFiles ctx d fl2 fnm := by
  simp only [StoreStateTxHandleFiles, DeStateStoreFileNoMatchCnt_dirCongr h,
    DeStateStoreFilestoreSigsCantMatch_dirCongr h, h]

theorem StoreStateTx_dirCongr {fl1 fl2 : StreamFlags}
    (h : dirIndex fl1 = dirIndex fl2) (ctx : DetectCtx) (f : Flow) (v : Nat)
    (tx : TxInfo) (s : Signature) (ifl : Flags) (fnm : Nat) (ok : Bool) :
    StoreStateTx ctx f fl1 v tx s ifl fnm ok
      = StoreStateTx ctx f fl2 v tx s ifl fnm ok := by
  simp only [StoreStateTx, DeStateSignatureAppend_dirCongr h,
    DeStateStoreStateVersion_dirCongr h, StoreStateTxHandleFiles_dirCongr h]

theorem StoreStateTxFileOnly_dirCongr {fl1 fl2 : StreamFlags}
    (h : dirIndex fl1 = dirIndex fl2) (ctx : DetectCtx) (f : Flow)
    (tx : TxInfo) (fnm : Nat) (ok : Bool) :
    StoreStateTxFileOnly ctx f fl1 tx fnm ok
      = StoreStateTxFileOnly ctx f fl2 tx fnm ok := by
  simp only [StoreStateTxFileOnly, StoreStateTxHandleFiles_dirCongr h]

theorem startTxEngineRun_dirCongr {fl1 fl2 : StreamFlags}
    (h : dirIndex fl1 = dirIndex fl2) (ctx : DetectCtx) (s : Signature)
    (i : Nat) :
    startTxEngineRun ctx s fl1 i = startTxEngineRun ctx s fl2 i := by
  simp only [startTxEngineRun, h]

theorem startTxAlerted_dirCongr {fl1 fl2 : StreamFlags}
    (h : dirIndex fl1 = dirIndex fl2) (ctx : DetectCtx) (s : Signature)
    (i : Nat) :
    startTxAlerted ctx s fl1 i = startTxAlerted ctx s fl2 i := by
  simp only [startTxAlerted, startTxEngineRun_dirCongr h]

theorem startTxStoredFlags_dirCongr {fl1 fl2 : StreamFlags}
    (h : dirIndex fl1 = dirIndex fl2) (ctx : DetectCtx) (s : Signature)
    (i : Nat) :
    startTxStoredFlags ctx s fl1 i = startTxStoredFlags ctx s fl2 i := by
  simp only [startTxStoredFlags, startTxEngineRun_dirCongr h]

theorem startTxStep_dirCongr {fl1 fl2 : StreamFlags}
    (h : dirIndex fl1 = dirIndex fl2) (ctx : DetectCtx) (s : Signature)
    (f : Flow) (v : Nat) (ok : Bool) (i total : Nat) (tx : TxInfo) (fnm : Nat) :
    startTxStep ctx s f fl1 v ok i total tx fnm
      = startTxStep ctx s f fl2 v ok i total tx fnm := by
  simp only [startTxStep, startTxAlerted_dirCongr h, startTxEngineRun_dirCongr h,
    startTxStoredFlags_dirCongr h, StoreStateTx_dirCongr h,
    StoreStateTxFileOnly_dirCongr h, h]

theorem StoreState_dirCongr {fl1 fl2 : StreamFlags}
    (h : dirIndex fl1 = dirIndex fl2) (f : Flow) (n : Nat) (nm : List Nat)
    (ifl : Flags) (v : Nat) (ok : Bool) :
    StoreState f n nm ifl fl1 v ok = StoreState f n nm ifl fl2 v ok := by
  simp only [StoreState, DeStateFlowRuleAppend_dirCongr h,
    DeStateStoreStateVersion_dirCongr h]

theorem startAmatchSection_dirCongr {fl1 fl2 : StreamFlags}
    (h : dirIndex fl1 = dirIndex fl2) (ctx : DetectCtx) (s : Signature)
    (f : Flow) (v : Nat) (ok : Bool) (evs : List (Nat × Nat)) (ac : Bool)
    (ifl0 : Flags) :
    startAmatchSection ctx s f fl1 v ok evs ac ifl0
      = startAmatchSection ctx s f fl2 v ok evs ac ifl0 := by
  simp only [startAmatchSection, StoreState_dirCongr h]

theorem startTxLoop_dirCongr {fl1 fl2 : StreamFlags}
    (h : dirIndex fl1 = dirIndex fl2) (ctx : DetectCtx) (s : Signature)
    (v : Nat) (ok : Bool) (total : Nat) :
    ∀ (ids : List Nat) (f : Flow) (fnm : Nat) (ifl : Flags)
      (evs : List (Nat × Nat)) (ac : Bool),
      startTxLoop ctx s fl1 v ok total ids f fnm ifl evs ac
        = startTxLoop ctx s fl2 v ok total ids f fnm ifl evs ac
  | [], f, fnm, ifl, evs, ac => rfl
  | i :: rest, f, fnm, ifl, evs, ac => by
      rw [startTxLoop, startTxLoop]
      cases hg : f.txs.get? i with
      | none =>
          exact startTxLoop_dirCongr h ctx s v ok total rest f fnm ifl evs ac
      | some tx =>
          dsimp only
          by_cases hp : tx.present = false
          · rw [if_pos hp, if_pos hp]
            exact startTxLoop_dirCongr h ctx s v ok total rest f fnm ifl evs ac
          · rw [if_neg hp, if_neg hp, startTxStep_dirCongr h]
            exact startTxLoop_dirCongr h ctx s v ok total rest _ _ _ _ _

theorem startDetection_dirCongr {fl1 fl2 : StreamFlags}
    (h : dirIndex fl1 = dirIndex fl2) (ctx : DetectCtx) (s : Signature)
    (f : Flow) (v : Nat) (ok : Bool) :
    DeStateDetectStartDetection ctx s f fl1 v ok
      = DeStateDetectStartDetection ctx s f fl2 v ok := by
  simp only [DeStateDetectStartDetection, startTxLoop_dirCongr h,
    startAmatchSection_dirCongr h, h]

/-- What the continue driver can see of one transaction in direction
slot `j`: its presence and (when a detect state exists) the slot's whole
direction state. -/
def txShadow (j : Fin 2) (tx : TxInfo) : Bool × Option (DirStateG StoredItem) :=
  (tx.present, tx.deState.map (fun d => d.dirState j))

/-- The direction-`j` shadow of a flow: every transaction's shadow plus
the flow-scoped state's slot `j`. -/
def flowShadow (j : Fin 2) (f : Flow) :
    List (Bool × Option (DirStateG StoredItem)) × Option (DirStateG FlowRuleItem) :=
  (f.txs.map (txShadow j), f.deState.map (fun d => d.dirState j))

theorem set_same {α : Type} :
    ∀ (l : List α) (i : Nat) (a : α), l.get? i = some a → l.set i a = l
  | [], i, a => by intro hg; cases hg
  | x :: xs, 0, a => by
      intro hg
      cases hg
      rfl
  | x :: xs, i + 1, a => by
      intro hg
      show x :: xs.set i a = x :: xs
      rw [set_same xs i a hg]

theorem contTxUpdated_shadow {fl : StreamFlags} {j : Fin 2}
    (hj : j ≠ dirIndex fl) (txs : List TxInfo) (i : Nat) (tx : TxInfo)
    (de : DetectEngineState) (ch : List (List StoredItem))
    (hg : txs.get? i = some tx) (hde : tx.deState = some de) :
    (contTxUpdated fl txs i tx de ch).map (txShadow j) = txs.map (txShadow j) := by
  rw [contTxUpdated, List.map_set]
  have hopen : txShadow j { tx with deState := some (DetectEngineState.mk
      (Function.update de.dirState (dirIndex fl)
        { de.dirState (dirIndex fl) with chunks := ch })) } = txShadow j tx := by
    simp [txShadow, hde, Function.update_noteq hj]
  rw [hopen]
  apply set_same
  rw [List.get?_eq_getElem?, List.getElem?_map]
  rw [List.get?_eq_getElem?] at hg
  rw [hg]
  rfl

theorem contTxLoop_shadow {fl : StreamFlags} {j : Fin 2}
    (hj : j ≠ dirIndex fl) (ctx : DetectCtx) (sv : Bool) (comp : Nat) :
    ∀ (ids : List Nat) (txs : List TxInfo) (sc : Nat),
      ((contTxLoop ctx fl sv comp ids txs sc).1).map (txShadow j)
        = txs.map (txShadow j)
  | [], txs, sc => rfl
  | i :: rest, txs, sc => by
      rw [contTxLoop]
      cases hg : txs.get? i with
      | none => exact contTxLoop_shadow hj ctx sv comp rest txs sc
      | some tx =>
          dsimp only
          by_cases hp : tx.present = false
          · rw [if_pos hp]
            exact contTxLoop_shadow hj ctx sv comp rest txs sc
          · rw [if_neg hp]
            cases hde : tx.deState with
            | none => exact contTxLoop_shadow hj ctx sv comp rest txs sc
            | some de =>
                dsimp only
                by_cases hok : (contTxRun ctx fl sv i tx de).2.2.2.2 = false
                · rw [if_pos hok]
                  exact contTxUpdated_shadow hj txs i tx de _ hg hde
                · rw [if_neg hok]
                  by_cases hpr : tx.progress (dirIndex fl) < comp
                  · rw [if_pos hpr]
                    exact contTxUpdated_shadow hj txs i tx de _ hg hde
                  · rw [if_neg hpr]
                    dsimp only
                    rw [contTxLoop_shadow hj ctx sv comp rest _ _]
                    exact contTxUpdated_shadow hj txs i tx de _ hg hde

theorem contTxPhase_shadow {fl : StreamFlags} {j : Fin 2}
    (hj : j ≠ dirIndex fl) (ctx : DetectCtx) (f : Flow) :
    ((contTxPhase ctx f fl).1).map (txShadow j) = f.txs.map (txShadow j) := by
  rw [contTxPhase]
  by_cases hs : f.supportsTxs = true
  · rw [if_pos hs]
    exact contTxLoop_shadow hj ctx f.stateValid (f.completion (dirIndex fl)) _ _ _
  · rw [if_neg hs]

/-- The continue driver never touches the other direction's slot: for
any slot `j` different from the packet's `dirIndex`, every transaction's
slot-`j` direction state (and presence), and the flow-scoped state's
slot `j`, are unchanged. -/
theorem continueDetection_frame (ctx : DetectCtx) (f : Flow)
    (fl : StreamFlags) (v : Nat) {j : Fin 2} (hj : j ≠ dirIndex fl) :
    flowShadow j (DeStateDetectContinueDetection ctx f fl v).flow
      = flowShadow j f := by
  rw [DeStateDetectContinueDetection]
  by_cases h1 : f.supportsTxs = true ∧ f.stateValid = false
  · rw [if_pos h1]
  · rw [if_neg h1]
    by_cases h2 : (contTxPhase ctx f fl).2.2.2.2 = false
    · rw [if_pos h2, flowShadow, flowShadow]
      dsimp only
      rw [contTxPhase_shadow hj ctx f]
    · rw [if_neg h2]
      cases hfd : f.deState with
      | none =>
          show (((contTxPhase ctx f fl).1).map (txShadow j),
              Option.map _ (none : Option DetectEngineStateFlow)) = _
          rw [contTxPhase_shadow hj ctx f, flowShadow, hfd]
      | some fd =>
          dsimp only
          have hupd : ∀ (txs2 : List TxInfo) (ch2 : List (List FlowRuleItem)),
              txs2.map (txShadow j) = f.txs.map (txShadow j) →
              flowShadow j (contFlowUpdated f fl fd txs2 ch2) = flowShadow j f := by
            intro txs2 ch2 htxs2
            rw [contFlowUpdated, flowShadow, flowShadow, hfd]
            refine Prod.ext ?_ ?_
            · exact htxs2
            · show some (Function.update fd.dirState (dirIndex fl)
                  { fd.dirState (dirIndex fl) with chunks := ch2 } j) = _
              rw [Function.update_noteq hj]
              rfl
          by_cases h3 : (contFlowRun ctx f fl fd (contTxPhase ctx f fl).2.2.2.1).2.2.2.2
            = true
          · rw [if_pos h3]
            show flowShadow j (DeStateStoreStateVersion
                (contFlowUpdated f fl fd (contTxPhase ctx f fl).1
                  (contFlowRun ctx f fl fd (contTxPhase ctx f fl).2.2.2.1).1)
                v fl) = flowShadow j f
            have hver : ∀ (f2 : Flow) (v2 : Nat),
                flowShadow j (DeStateStoreStateVersion f2 v2 fl) = flowShadow j f2 :=
              fun f2 v2 => rfl
            rw [hver]
            exact hupd _ _ (contTxPhase_shadow hj ctx f)
          · rw [if_neg h3]
            exact hupd _ _ (contTxPhase_shadow hj ctx f)

/-- Claim C10: every operation of the core selects the per-direction
state slot by testing only the STREAM_TOSERVER bit — index 0 iff
TOSERVER is set, index 1 otherwise, with TOCLIENT and EOF never
influencing the slot.  In particular a flags value with neither
direction bit set selects index 1 exactly as a TOCLIENT flags value
does: the appends, the version store, the filestore counting,
has-inspectable-state and the whole start driver are equal on
neither-direction and TOCLIENT flags, and the continue driver confines
its reads and writes of transaction and flow detect states to slot 1 —
slot 0 of every state (and every transaction's presence) is untouched
whenever TOSERVER is unset.  (The continue driver's file-reopen carve
rules additionally test the direction bits themselves, so for it the
claim's "treated as TO_CLIENT" holds of the slot selection, which is
what the claim's "(index 1)" states.) -/
theorem c10_direction_slot_selection :
    (∀ fl : StreamFlags, (dirIndex fl = 0 ↔ fl.toserver = true)
       ∧ (dirIndex fl = 1 ↔ fl.toserver = false)) ∧
    (∀ ts tc tc' e e' : Bool,
       dirIndex ⟨ts, tc, e⟩ = dirIndex ⟨ts, tc', e'⟩) ∧
    (∀ e : Bool, dirIndex ⟨false, false, e⟩ = 1) ∧
    (∀ (e : Bool) (st : DetectEngineState) (n : Nat) (ifl : Flags) (ok : Bool),
       DeStateSignatureAppend st n ifl ⟨false, false, e⟩ ok
         = DeStateSignatureAppend st n ifl ⟨false, true, e⟩ ok) ∧
    (∀ (e : Bool) (st : DetectEngineStateFlow) (n : Nat) (nm : List Nat)
       (ifl : Flags) (ok : Bool),
       DeStateFlowRuleAppend st n nm ifl ⟨false, false, e⟩ ok
         = DeStateFlowRuleAppend st n nm ifl ⟨false, true, e⟩ ok) ∧
    (∀ (e : Bool) (f : Flow) (v : Nat),
       DeStateStoreStateVersion f v ⟨false, false, e⟩
         = DeStateStoreStateVersion f v ⟨false, true, e⟩) ∧
    (∀ (e : Bool) (d : DetectEngineState) (n : Nat),
       DeStateStoreFileNoMatchCnt d n ⟨false, false, e⟩
         = DeStateStoreFileNoMatchCnt d n ⟨false, true, e⟩) ∧
    (∀ (e : Bool) (c : Nat) (d : DetectEngineState),
       DeStateStoreFilestoreSigsCantMatch c d ⟨false, false, e⟩
         = DeStateStoreFilestoreSigsCantMatch c d ⟨false, true, e⟩) ∧
    (∀ (e : Bool) (f : Flow) (v : Nat),
       DeStateFlowHasInspectableState f v ⟨false, false, e⟩
         = DeStateFlowHasInspectableState f v ⟨false, true, e⟩) ∧
    (∀ (e : Bool) (ctx : DetectCtx) (s : Signature) (f : Flow) (v : Nat)
       (ok : Bool),
       DeStateDetectStartDetection ctx s f ⟨false, false, e⟩ v ok
         = DeStateDetectStartDetection ctx s f ⟨false, true, e⟩ v ok) ∧
    (∀ (ctx : DetectCtx) (f : Flow) (fl : StreamFlags) (v : Nat),
       fl.toserver = false →
         flowShadow 0 (DeStateDetectContinueDetection ctx f fl v).flow
           = flowShadow 0 f) := by
  refine ⟨?_, ?_, ?_, ?_, ?_, ?_, ?_, ?_, ?_, ?_, ?_⟩
  · intro fl
    cases hts : fl.toserver <;> constructor <;> simp [dirIndex, hts]
  · intro ts tc tc' e e'
    cases ts <;> rfl
  · intro e
    rfl
  · exact fun e st n ifl ok => DeStateSignatureAppend_dirCongr rfl st n ifl ok
  · exact fun e st n nm ifl ok =>
      DeStateFlowRuleAppend_dirCongr rfl st n nm ifl ok
  · exact fun e f v => DeStateStoreStateVersion_dirCongr rfl f v
  · exact fun e d n => DeStateStoreFileNoMatchCnt_dirCongr rfl d n
  · exact fun e c d => DeStateStoreFilestoreSigsCantMatch_dirCongr rfl c d
  · exact fun e f v => DeStateFlowHasInspectableState_dirCongr rfl rfl f v
  · exact fun e ctx s f v ok => startDetection_dirCongr
      (show dirIndex ⟨false, false, e⟩ = dirIndex ⟨false, true, e⟩ from rfl)
      ctx s f v ok
  · intro ctx f fl v hts
    have h1 : dirIndex fl = 1 := by
      rw [dirIndex, hts]
      rfl
    exact continueDetection_frame ctx f fl v (by rw [h1]; decide)

def c10Ctx : DetectCtx :=
  { sigArray := fun _ => ⟨3, fun _ => false, [], false⟩,
    engines := fun _ => [],
    engRes := fun _ _ _ => InspectResult.noMatch,
    appHasCb := fun _ => false,
    appRes := fun _ _ => 0,
    dceRes := fun _ => false,
    sghFilestoreCnt := 1 }

def c10Flow : Flow :=
  { supportsTxs := true, supportsTxDetect := true, alstateNull := false,
    stateValid := true, dceProto := false,
    inspectId := fun _ => 0, completion := fun _ => 1,
    txs := [⟨true, fun _ => 1, some (DeStateSignatureAppend
      emptyDetectEngineState 3 {DeFlag.engineBit 0} ⟨false, false, false⟩ true)⟩],
    deState := none, detectAlversion := fun _ => 0 }

theorem c10_direction_slot_selection_witness :
    ((⟨false, false, false⟩ : StreamFlags).toserver = false) ∧
    flowShadow 0 (DeStateDetectContinueDetection c10Ctx c10Flow
        ⟨false, false, false⟩ 3).flow = flowShadow 0 c10Flow :=
  ⟨rfl, c10_direction_slot_selection.2.2.2.2.2.2.2.2.2.2 c10Ctx c10Flow
      ⟨false, false, false⟩ 3 rfl⟩

end DeState
